import Mathlib

/-!
# CameraInput: a shallow embedding of `src/src/CameraInput.cpp`

The development models the acquisition object `CameraInput` of the
AnatomicAugmentedRealityProjector: its circular frame buffer
(`PutFrameInBuffer`), its trigger-delay sweep (`IncrementTriggerDelay`,
`SetCameraTriggerDelay`), its configuration and teardown sequences
(`Configure`, `Stop`) and the band detector (`FindTopBottomLines`).

Conventions.
* C++ `int` values are `Int`; the only `int` arithmetic in the modelled code is
  `index % BufferSize`, which is C++ truncated remainder, `Int.tmod`.
* A `double` is represented by the rational number it denotes; arithmetic on
  doubles is exact arithmetic followed by IEEE 754 binary64 rounding to nearest,
  ties to even (`roundDouble`).
* A camera call returns an `Error`; the model carries, for each call a function
  makes, the Boolean "the call returned `PGRERROR_OK`".
* Undefined behaviour (a store outside the buffer, a remainder by zero) is
  `none`; an escaping `cv::Exception` is recorded in the result of the call.
-/

namespace CameraInput

/-! ## Images -/

/-- The OpenCV type code `CV_8UC3` (8-bit unsigned, three channels). -/
def CV_8UC3 : Nat := 16

/-- One `cv::Vec3b` pixel: the three 8-bit channels `val[0]`, `val[1]`, `val[2]`. -/
structure Vec3b where
  val0 : Nat
  val1 : Nat
  val2 : Nat
deriving DecidableEq

/-- A `cv::Mat` header as the code observes it: size, type code, whether the
`data` pointer is non-null, and the pixel at a (row, column) position. -/
structure Mat where
  rows : Nat
  cols : Nat
  type : Nat
  data : Bool
  pixel : Nat → Nat → Vec3b

/-! ## The object state -/

/-- Modelled from the spec: the class declaration (`CameraInput.hpp`) is not
among the sources. The fields are the members the member functions of
`CameraInput.cpp` read and write: `NbImages`, `delay`, the envelope
`TopLine`/`BottomLine`, and the ring buffer `FrameBuffer` of `BufferSize` slots.
The integer members are taken as C++ `int` (they are compared with and assigned
from `int` locals), the delay as a `double`, the buffer as an indexable sequence
of `cv::Mat`. -/
structure State where
  NbImages : Int
  delay : ℚ
  TopLine : Int
  BottomLine : Int
  BufferSize : Int
  FrameBuffer : List Mat

/-- Modelled from the spec: `GetTopLine` is declared in the absent header; it is
taken as the plain accessor of `TopLine`. -/
def GetTopLine (c : State) : Int := c.TopLine

/-- Modelled from the spec: `GetBottomLine` is declared in the absent header; it
is taken as the plain accessor of `BottomLine`. -/
def GetBottomLine (c : State) : Int := c.BottomLine

/-- Modelled from the spec: `SetTopLine` is declared in the absent header; it is
taken as the plain setter of `TopLine`. -/
def SetTopLine (c : State) (v : Int) : State := { c with TopLine := v }

/-- Modelled from the spec: `SetBottomLine` is declared in the absent header; it
is taken as the plain setter of `BottomLine`. -/
def SetBottomLine (c : State) (v : Int) : State := { c with BottomLine := v }

/-! ## The ring buffer -/

/-- The slot position `int pos = index % this->BufferSize` (truncated remainder). -/
def bufferPos (c : State) (index : Int) : Int := Int.tmod index c.BufferSize

/-- The member function `CameraInput::PutFrameInBuffer`: `FrameBuffer[pos] = f.clone()` with
`pos = index % BufferSize`. The result is `none` when the statement has undefined
behaviour: a remainder by zero, or a position outside the buffer. -/
def PutFrameInBuffer (c : State) (f : Mat) (index : Int) : Option State :=
  if c.BufferSize = 0 then none
  else
    let pos := bufferPos c index
    if 0 ≤ pos ∧ pos.toNat < c.FrameBuffer.length then
      some { c with FrameBuffer := c.FrameBuffer.set pos.toNat f }
    else none

/-- A sequence of `PutFrameInBuffer(frame, index)` calls, in order. -/
def putAll (c : State) : List (Mat × Int) → Option State
  | [] => some c
  | w :: ws => (PutFrameInBuffer c w.1 w.2).bind (fun c' => putAll c' ws)

/-- The frame of the most recent write of the sequence whose index is congruent
to `s` modulo `N`, if there is one. -/
def lastWrite (N s : Nat) (ws : List (Mat × Nat)) : Option Mat :=
  (ws.reverse.find? (fun w => w.2 % N = s)).map Prod.fst

/-! ## Double-precision arithmetic -/

/-- The integer nearest to `x`, the even one when `x` lies halfway between two. -/
def roundHalfEven (x : ℚ) : ℤ :=
  let f := ⌊x⌋
  if x - f < 1 / 2 then f else if 1 / 2 < x - f then f + 1 else if f % 2 = 0 then f else f + 1

/-- The binary64 value nearest to `q` (ties to even): `q` is rounded to a multiple
of `2 ^ u`, where `u` is the exponent of the last of the 53 significand bits of
its binade, and never below the subnormal spacing `2 ^ (-1074)`. Magnitudes of
`2 ^ 1024` and above, which round to infinity, are outside the model. -/
def roundDouble (q : ℚ) : ℚ :=
  if q = 0 then 0
  else
    let u : ℤ := max (Int.log 2 |q| - 52) (-1074)
    (roundHalfEven (q / (2 : ℚ) ^ u) : ℚ) * (2 : ℚ) ^ u

/-- The sum of two doubles: the exact sum, rounded. -/
def doubleAdd (a b : ℚ) : ℚ := roundDouble (a + b)

/-! ## The trigger delay -/

/-- The outcomes of the camera calls made by `SetCameraTriggerDelay`. -/
structure TriggerDelayCamera where
  GetPropertyInfo_ok : Bool
  present : Bool
  GetProperty_ok : Bool
  SetProperty_ok : Bool
deriving DecidableEq

/-- The member function `CameraInput::SetCameraTriggerDelay`: returns early (member `delay` untouched)
when `GetPropertyInfo` fails or when the property is present, readable and
`SetProperty` fails; otherwise records the value in `this->delay`. -/
def SetCameraTriggerDelay (c : State) (cam : TriggerDelayCamera) (delay : ℚ) : State :=
  if !cam.GetPropertyInfo_ok then c
  else if cam.present && cam.GetProperty_ok && !cam.SetProperty_ok then c
  else { c with delay := delay }

/-- The member function `CameraInput::IncrementTriggerDelay`: `delay += .0002` in
double arithmetic, reset to `0` when the sum is greater than `.011`, then
`SetCameraTriggerDelay(this->delay)`. The literals are the doubles nearest to the
decimal values. -/
def IncrementTriggerDelay (c : State) (cam : TriggerDelayCamera) : State :=
  let c1 : State := { c with delay := doubleAdd c.delay (roundDouble (2 / 10000)) }
  let c2 : State := if c1.delay > roundDouble (11 / 1000) then { c1 with delay := 0 } else c1
  SetCameraTriggerDelay c2 cam c2.delay

/-- Repeated `IncrementTriggerDelay` calls, one per listed camera behaviour. -/
def incrementCalls (c : State) (cams : List TriggerDelayCamera) : State :=
  cams.foldl IncrementTriggerDelay c

/-! ## Configuration and teardown -/

/-- The outcomes of the camera calls made by `Configure`, in call order. -/
structure ConfigureCamera where
  GetFormat7Info_ok : Bool
  raw8Supported : Bool
  ValidateFormat7Settings_ok : Bool
  valid : Bool
  SetFormat7Configuration_ok : Bool
  SetProperty_SHUTTER_ok : Bool
  SetTriggerMode_ok : Bool
  triggerDelay : TriggerDelayCamera
  SetProperty_BRIGHTNESS_ok : Bool
  SetProperty_AUTO_EXPOSURE_ok : Bool
deriving DecidableEq

/-- The member function `CameraInput::Configure`: each checked call returns `false` on failure;
`SetCameraTriggerDelay( 0.0 )` is a `void` call whose outcome is not inspected. -/
def Configure (c : State) (cam : ConfigureCamera) : Bool × State :=
  if !cam.GetFormat7Info_ok then (false, c)
  else if !cam.raw8Supported then (false, c)
  else if !cam.ValidateFormat7Settings_ok then (false, c)
  else if !cam.valid then (false, c)
  else if !cam.SetFormat7Configuration_ok then (false, c)
  else if !cam.SetProperty_SHUTTER_ok then (false, c)
  else if !cam.SetTriggerMode_ok then (false, c)
  else
    let c1 := SetCameraTriggerDelay c cam.triggerDelay 0
    if !cam.SetProperty_BRIGHTNESS_ok then (false, c1)
    else if !cam.SetProperty_AUTO_EXPOSURE_ok then (false, c1)
    else (true, c1)

/-- The camera-facing actions of the teardown, in the order they happen. -/
inductive Action where
  | StopCapture
  | Disconnect
  | PrintErrorTrace
deriving DecidableEq

/-- The member function `CameraInput::Stop`: `StopCapture` (a failure is only printed), then
`Disconnect` (a failure is printed and returns `false`). The result is the
returned flag together with the actions performed. -/
def Stop (StopCapture_ok Disconnect_ok : Bool) : Bool × List Action :=
  let t1 := [Action.StopCapture]
  let t2 := if !StopCapture_ok then t1 ++ [Action.PrintErrorTrace] else t1
  let t3 := t2 ++ [Action.Disconnect]
  if !Disconnect_ok then (false, t3 ++ [Action.PrintErrorTrace])
  else (true, t3)

/-! ## The OpenCV operations used by the band detector

These are library calls; they are modelled by their documented behaviour on
8-bit three-channel images. -/

/-- The C++ `cv::saturate_cast<uchar>`: clamp an integer to `0 .. 255`. -/
def saturate_cast (v : Int) : Nat :=
  if v < 0 then 0 else if v > 255 then 255 else v.toNat

/-- The test `cv::Mat::empty()`: no data, or no rows, or no columns. -/
def Mat.empty (m : Mat) : Bool := !m.data || m.rows == 0 || m.cols == 0

/-- The call `cv::subtract( src1, src2, dst )` on two 8-bit arrays: per channel
`saturate_cast<uchar>( src1 - src2 )`. Arrays of different size or type are
neither "array op array" nor "array op scalar" and raise a `cv::Exception`
(`none`). The destination owns data exactly when it has pixels. -/
def subtract (src1 src2 : Mat) : Option Mat :=
  if src1.rows = src2.rows ∧ src1.cols = src2.cols ∧ src1.type = src2.type then
    some
      { rows := src1.rows
        cols := src1.cols
        type := src1.type
        data := decide (0 < src1.rows ∧ 0 < src1.cols)
        pixel := fun i j =>
          { val0 := saturate_cast ((src1.pixel i j).val0 - (src2.pixel i j).val0)
            val1 := saturate_cast ((src1.pixel i j).val1 - (src2.pixel i j).val1)
            val2 := saturate_cast ((src1.pixel i j).val2 - (src2.pixel i j).val2) } }
  else none

/-- The matrix returned by `cv::getStructuringElement( cv::MORPH_ELLIPSE,
cv::Size( 5, 5 ) )`; its anchor is the centre `(2, 2)`. -/
def getStructuringElement_ELLIPSE_5x5 : List (List Nat) :=
  [ [0, 0, 1, 0, 0],
    [1, 1, 1, 1, 1],
    [1, 1, 1, 1, 1],
    [1, 1, 1, 1, 1],
    [0, 0, 1, 0, 0] ]

/-- The (row, column) positions of the non-zero entries of a 5x5 kernel. -/
def kernelPoints (k : List (List Nat)) : List (Nat × Nat) :=
  (List.range 5).flatMap fun di =>
    (List.range 5).filterMap fun dj =>
      if (k.getD di []).getD dj 0 ≠ 0 then some (di, dj) else none

/-- One channel of an image: the value at a (row, column) position. -/
abbrev Plane := Nat → Nat → Nat

/-- The source value a 5x5 kernel anchored at its centre reads for output pixel
`(i, j)` through kernel entry `d`: the pixel at `(i + d.1 - 2, j + d.2 - 2)`, or
the constant border value when that position lies outside the image. -/
def kernelSample (border : Nat) (src : Plane) (rows cols i j : Nat) (d : Nat × Nat) : Nat :=
  if 2 ≤ i + d.1 ∧ i + d.1 - 2 < rows ∧ 2 ≤ j + d.2 ∧ j + d.2 - 2 < cols then
    src (i + d.1 - 2) (j + d.2 - 2)
  else border

/-- One channel of `cv::erode` with the 5x5 ellipse: the minimum over the kernel,
the default border counting as the largest value, 255. -/
def erodePlane (src : Plane) (rows cols : Nat) : Plane := fun i j =>
  ((kernelPoints getStructuringElement_ELLIPSE_5x5).map
    (kernelSample 255 src rows cols i j)).foldl min 255

/-- One channel of `cv::dilate` with the 5x5 ellipse: the maximum over the kernel,
the default border counting as the smallest value, 0. -/
def dilatePlane (src : Plane) (rows cols : Nat) : Plane := fun i j =>
  ((kernelPoints getStructuringElement_ELLIPSE_5x5).map
    (kernelSample 0 src rows cols i j)).foldl max 0

/-- The call `cv::erode( m, m, getStructuringElement( MORPH_ELLIPSE, Size( 5, 5 ) ) )`,
channel by channel. -/
def erode (m : Mat) : Mat :=
  { m with
    pixel := fun i j =>
      { val0 := erodePlane (fun y x => (m.pixel y x).val0) m.rows m.cols i j
        val1 := erodePlane (fun y x => (m.pixel y x).val1) m.rows m.cols i j
        val2 := erodePlane (fun y x => (m.pixel y x).val2) m.rows m.cols i j } }

/-- The call `cv::dilate( m, m, getStructuringElement( MORPH_ELLIPSE, Size( 5, 5 ) ) )`,
channel by channel. -/
def dilate (m : Mat) : Mat :=
  { m with
    pixel := fun i j =>
      { val0 := dilatePlane (fun y x => (m.pixel y x).val0) m.rows m.cols i j
        val1 := dilatePlane (fun y x => (m.pixel y x).val1) m.rows m.cols i j
        val2 := dilatePlane (fun y x => (m.pixel y x).val2) m.rows m.cols i j } }

/-- The part of `mat_HSV` the detector reads: its size and, for each pixel, the
brightness channel `val[2]`. Hue and saturation are never read and not modelled. -/
structure MatHSV where
  rows : Nat
  cols : Nat
  val2 : Plane

/-- The call `cv::cvtColor( src, dst, cv::COLOR_BGR2HSV )` for 8-bit images: the brightness
of a pixel is the largest of its three channels. An empty source raises a
`cv::Exception` (`none`). -/
def cvtColor_BGR2HSV (src : Mat) : Option MatHSV :=
  if src.empty then none
  else
    some
      { rows := src.rows
        cols := src.cols
        val2 := fun i j =>
          max (max (src.pixel i j).val0 (src.pixel i j).val1) (src.pixel i j).val2 }

/-! ## The band detector -/

/-- The local variables of the scan loop. -/
structure Scan where
  max_i : Nat
  min_i : Nat
  first : Bool
deriving DecidableEq

/-- The body of the inner loop at pixel `(i, j)`. -/
def scanPixel (m : MatHSV) (i : Nat) (s : Scan) (j : Nat) : Scan :=
  if m.val2 i j > 90 then
    { max_i := i, min_i := if s.first = true then i else s.min_i, first := false }
  else s

/-- The inner loop `for( j = 0; j < cols; j++ )` on row `i`. -/
def scanRow (m : MatHSV) (s : Scan) (i : Nat) : Scan :=
  (List.range m.cols).foldl (scanPixel m i) s

/-- The scan: `max_i = 0; min_i = rows; first = true;` and the two nested loops. -/
def scan (m : MatHSV) : Scan :=
  (List.range m.rows).foldl (scanRow m) { max_i := 0, min_i := m.rows, first := true }

/-- What a call printed on `std::cout`. -/
inductive Message where
  | invalidMatData
deriving DecidableEq

/-- The observable result of one `FindTopBottomLines` call: the object state
after it, the messages printed, and whether a `cv::Exception` escaped. -/
structure CallResult where
  state : State
  printed : List Message
  threw : Bool

/-- The two conditional updates that end `FindTopBottomLines`. -/
def updateLines (c : State) (s : Scan) : State :=
  let c1 := if (s.max_i : Int) > GetBottomLine c then SetBottomLine c s.max_i else c
  if (s.min_i : Int) < GetTopLine c1 then SetTopLine c1 s.min_i else c1

/-- The member function `CameraInput::FindTopBottomLines( mat_color_ref, mat_color )`:
the guard, the subtraction, the opening, the colour conversion, the scan and the
two envelope updates. -/
def FindTopBottomLines (c : State) (mat_color_ref mat_color : Mat) : CallResult :=
  if !mat_color_ref.data || mat_color_ref.type != CV_8UC3
      || !mat_color.data || mat_color.type != CV_8UC3 then
    { state := c, printed := [Message.invalidMatData], threw := false }
  else
    match subtract mat_color mat_color_ref with
    | none => { state := c, printed := [], threw := true }
    | some diff =>
      let printed :=
        if !diff.data || diff.type != CV_8UC3 then [Message.invalidMatData] else []
      let mat_BGR := dilate (erode diff)
      match cvtColor_BGR2HSV mat_BGR with
      | none => { state := c, printed := printed, threw := true }
      | some mat_HSV =>
        { state := updateLines c (scan mat_HSV), printed := printed, threw := false }

/-- A sequence of `FindTopBottomLines` calls on (reference, live) pairs, each call
starting from the state the previous one left. -/
def findAll (c : State) (calls : List (Mat × Mat)) : State :=
  calls.foldl (fun s p => (FindTopBottomLines s p.1 p.2).state) c

/-- A call signals an error when it prints the invalid-data message or lets a
`cv::Exception` escape. -/
def CallResult.signalsError (r : CallResult) : Bool :=
  r.threw || decide (Message.invalidMatData ∈ r.printed)

/-- Row `i` of the brightness image has a pixel brighter than the threshold 90. -/
def litRow (m : MatHSV) (i : Nat) : Prop :=
  i < m.rows ∧ ∃ j, j < m.cols ∧ 90 < m.val2 i j

/-- The brightness image the detector scans for a (reference, live) pair, when no
OpenCV call throws. -/
def brightnessImage (mat_color_ref mat_color : Mat) : Option MatHSV :=
  (subtract mat_color mat_color_ref).bind fun diff => cvtColor_BGR2HSV (dilate (erode diff))

/-- The guard of `FindTopBottomLines` passes: both frames have data and type
`CV_8UC3`. -/
def validFrames (mat_color_ref mat_color : Mat) : Prop :=
  mat_color_ref.data = true ∧ mat_color_ref.type = CV_8UC3 ∧
    mat_color.data = true ∧ mat_color.type = CV_8UC3

/-- An all-black frame of the given size. -/
def blackFrame (rows cols : Nat) : Mat :=
  { rows := rows, cols := cols, type := CV_8UC3, data := true,
    pixel := fun _ _ => { val0 := 0, val1 := 0, val2 := 0 } }

/-- A frame that is white on rows 40 to 60 inclusive and black elsewhere. -/
def stripeFrame (rows cols : Nat) : Mat :=
  { rows := rows, cols := cols, type := CV_8UC3, data := true,
    pixel := fun i _ =>
      if 40 ≤ i ∧ i ≤ 60 then { val0 := 255, val1 := 255, val2 := 255 }
      else { val0 := 0, val1 := 0, val2 := 0 } }

/-- The initial state used by the examples: envelope `(rows, 0)`, delay `0`, and
a ring buffer of `n` black 1x1 frames. -/
def initState (rows : Nat) (n : Nat) : State :=
  { NbImages := 1, delay := 0, TopLine := rows, BottomLine := 0,
    BufferSize := n, FrameBuffer := List.replicate n (blackFrame 1 1) }

/-! ## Auxiliary notions for the delay sweep -/

/-- The effect of one `IncrementTriggerDelay` call on the member `delay`. -/
def delayStep (d : ℚ) : ℚ :=
  if doubleAdd d (roundDouble (2 / 10000)) > roundDouble (11 / 1000) then 0
  else doubleAdd d (roundDouble (2 / 10000))

/-- The delay after `k` calls of `IncrementTriggerDelay` from 0, for `k = 0 .. 55`,
as the binary64 running sum (the last entry is the wrapped value). -/
def sweepTable : List ℚ :=
  [ 0,
    7378697629483821 / 2 ^ 65,
    7378697629483821 / 2 ^ 64,
    2767011611056433 / 2 ^ 62,
    7378697629483821 / 2 ^ 63,
    1152921504606847 / 2 ^ 60,
    2767011611056433 / 2 ^ 61,
    807045053224793 / 2 ^ 59,
    3689348814741911 / 2 ^ 61,
    2075258708292325 / 2 ^ 60,
    4611686018427389 / 2 ^ 61,
    317053413766883 / 2 ^ 57,
    5534023222112867 / 2 ^ 61,
    2997595911977803 / 2 ^ 60,
    6456360425798345 / 2 ^ 61,
    1729382256910271 / 2 ^ 59,
    7378697629483823 / 2 ^ 61,
    3919933115663281 / 2 ^ 60,
    8301034833169301 / 2 ^ 61,
    1095275429376505 / 2 ^ 58,
    4611686018427389 / 2 ^ 60,
    2421135159674379 / 2 ^ 59,
    5072854620270127 / 2 ^ 60,
    662929865148937 / 2 ^ 57,
    5534023222112865 / 2 ^ 60,
    2882303761517117 / 2 ^ 59,
    5995191823955603 / 2 ^ 60,
    1556444031219243 / 2 ^ 58,
    6456360425798341 / 2 ^ 60,
    3343472363359855 / 2 ^ 59,
    6917529027641079 / 2 ^ 60,
    446757083035153 / 2 ^ 56,
    7378697629483817 / 2 ^ 60,
    3804640965202593 / 2 ^ 59,
    7839866231326555 / 2 ^ 60,
    2017612633061981 / 2 ^ 58,
    8301034833169293 / 2 ^ 60,
    4265809567045331 / 2 ^ 59,
    8762203435012031 / 2 ^ 60,
    1124098466991675 / 2 ^ 57,
    4611686018427385 / 2 ^ 59,
    2363489084444035 / 2 ^ 58,
    4842270319348755 / 2 ^ 59,
    154923827181545 / 2 ^ 54,
    5072854620270125 / 2 ^ 59,
    2594073385365405 / 2 ^ 58,
    5303438921191495 / 2 ^ 59,
    1354682767913045 / 2 ^ 57,
    5534023222112865 / 2 ^ 59,
    2824657686286775 / 2 ^ 58,
    5764607523034235 / 2 ^ 59,
    734987459186865 / 2 ^ 56,
    5995191823955605 / 2 ^ 59,
    3055241987208145 / 2 ^ 58,
    6225776124876975 / 2 ^ 59,
    0 ]

/-! ## Auxiliary notions for the scan loop -/

/-- The scan state after an illuminated pixel was met on row `i`. -/
def Scan.hit (s : Scan) (i : Nat) : Scan :=
  { max_i := i, min_i := if s.first = true then i else s.min_i, first := false }

/-- Row `i` has a pixel brighter than 90 among its first `n` columns. -/
def litBefore (m : MatHSV) (i n : Nat) : Prop := ∃ j, j < n ∧ 90 < m.val2 i j

/-- The loop invariant of the outer loop after the first `n` rows. -/
def ScanInv (m : MatHSV) (n : Nat) (s : Scan) : Prop :=
  (s = { max_i := 0, min_i := m.rows, first := true } ∧
      ∀ i, i < n → ¬ litBefore m i m.cols) ∨
    (s.first = false ∧
      (s.min_i < n ∧ litBefore m s.min_i m.cols ∧
        ∀ i, i < n → litBefore m i m.cols → s.min_i ≤ i) ∧
      (s.max_i < n ∧ litBefore m s.max_i m.cols ∧
        ∀ i, i < n → litBefore m i m.cols → i ≤ s.max_i))

/-- The brightness image the detector computes for a black 61x1 reference frame
and the 61x1 stripe frame (the zero image stands in if an OpenCV call threw). -/
def stripeHSV : MatHSV :=
  (brightnessImage (blackFrame 61 1) (stripeFrame 61 1)).getD
    { rows := 0, cols := 0, val2 := fun _ _ => 0 }

/-! ## Configuration and teardown: theorems -/

/-- C7 (counterexample): the camera rejects the trigger-delay setting applied by
`Configure` and accepts everything else, yet `Configure` returns `true`. -/
theorem Configure_true_when_trigger_delay_rejected :
    (ConfigureCamera.mk true true true true true true true
        (TriggerDelayCamera.mk true true true false) true true).triggerDelay.SetProperty_ok = false ∧
      (Configure (initState 100 4)
        (ConfigureCamera.mk true true true true true true true
          (TriggerDelayCamera.mk true true true false) true true)).1 = true :=
  ⟨rfl, rfl⟩

/-- C7 (amended): for every combination of camera outcomes, `Configure` returns
`true` exactly when the pixel mode (format query, RAW8 support, validation,
validity, configuration) and the shutter, trigger-mode, brightness and exposure
settings were all accepted; the outcome of the trigger-delay setting plays no part. -/
theorem Configure_true_iff (c : State) (cam : ConfigureCamera) :
    (Configure c cam).1 = true ↔
      (cam.GetFormat7Info_ok = true ∧ cam.raw8Supported = true ∧
        cam.ValidateFormat7Settings_ok = true ∧ cam.valid = true ∧
        cam.SetFormat7Configuration_ok = true ∧ cam.SetProperty_SHUTTER_ok = true ∧
        cam.SetTriggerMode_ok = true ∧ cam.SetProperty_BRIGHTNESS_ok = true ∧
        cam.SetProperty_AUTO_EXPOSURE_ok = true) := by
  unfold Configure
  cases cam.GetFormat7Info_ok <;> cases cam.raw8Supported <;>
    cases cam.ValidateFormat7Settings_ok <;> cases cam.valid <;>
    cases cam.SetFormat7Configuration_ok <;> cases cam.SetProperty_SHUTTER_ok <;>
    cases cam.SetTriggerMode_ok <;> cases cam.SetProperty_BRIGHTNESS_ok <;>
    cases cam.SetProperty_AUTO_EXPOSURE_ok <;> simp

/-- C8: whatever `StopCapture` and `Disconnect` return, `Stop` calls `StopCapture`
and then `Disconnect`, exactly once each and in that order, and its result is the
outcome of `Disconnect` alone: a failed `StopCapture` does not make it `false`. -/
theorem Stop_attempts_both (StopCapture_ok Disconnect_ok : Bool) :
    (Stop StopCapture_ok Disconnect_ok).2.filter (fun a => decide (a ≠ Action.PrintErrorTrace))
        = [Action.StopCapture, Action.Disconnect] ∧
      (Stop StopCapture_ok Disconnect_ok).1 = Disconnect_ok ∧
      (Stop false true).1 = true := by
  cases StopCapture_ok <;> cases Disconnect_ok <;> decide


/-! ## The ring buffer: theorems -/

/-- For a non-negative index and a positive size the truncated remainder is the
usual one. -/
theorem bufferPos_of_nonneg (c : State) (N i : Nat) (hsize : c.BufferSize = N) :
    bufferPos c (i : Int) = ((i % N : Nat) : Int) := by
  unfold bufferPos
  rw [hsize, Int.tmod_eq_emod (Int.ofNat_nonneg i) (Int.ofNat_nonneg N)]
  push_cast
  rfl

/-- A write at a non-negative index into a well-formed buffer stores the frame at
slot `i % N` and changes nothing else. -/
theorem PutFrameInBuffer_of_nonneg (c : State) (N : Nat) (hN : 1 ≤ N)
    (hsize : c.BufferSize = N) (hlen : c.FrameBuffer.length = N) (f : Mat) (i : Nat) :
    PutFrameInBuffer c f (i : Int) =
      some { c with FrameBuffer := c.FrameBuffer.set (i % N) f } := by
  have hlt : i % N < N := Nat.mod_lt _ (by omega)
  have hne : c.BufferSize ≠ 0 := by rw [hsize]; exact_mod_cast (by omega : N ≠ 0)
  unfold PutFrameInBuffer
  rw [if_neg hne]
  simp only [bufferPos_of_nonneg c N i hsize, Int.toNat_ofNat, hlen]
  rw [if_pos ⟨Int.ofNat_nonneg _, hlt⟩]

/-- The most recent matching write of `w :: ws` is the one of `ws` if there is
one, and `w` itself otherwise. -/
theorem lastWrite_cons (N s : Nat) (w : Mat × Nat) (ws : List (Mat × Nat)) :
    lastWrite N s (w :: ws) =
      match lastWrite N s ws with
      | some f => some f
      | none => if w.2 % N = s then some w.1 else none := by
  unfold lastWrite
  rw [List.reverse_cons, List.find?_append]
  cases h : List.find? (fun w => decide (w.2 % N = s)) ws.reverse with
  | some v => simp
  | none =>
    by_cases hw : w.2 % N = s <;> simp [hw]

/-- After a sequence of writes at non-negative indices into a well-formed buffer,
the sequence succeeds, the buffer keeps its size, and every slot holds the frame
of the most recent write congruent to it, or its initial content. -/
theorem putAll_of_nonneg (N : Nat) (hN : 1 ≤ N) (ws : List (Mat × Nat)) :
    ∀ c : State, c.BufferSize = N → c.FrameBuffer.length = N →
      ∃ cf, putAll c (ws.map fun w => (w.1, (w.2 : Int))) = some cf ∧
        cf.BufferSize = N ∧ cf.FrameBuffer.length = N ∧
        ∀ s, s < N → cf.FrameBuffer[s]? =
          match lastWrite N s ws with
          | some f => some f
          | none => c.FrameBuffer[s]? := by
  induction ws with
  | nil =>
    intro c hsize hlen
    exact ⟨c, rfl, hsize, hlen, fun s _ => by simp [lastWrite]⟩
  | cons w ws ih =>
    intro c hsize hlen
    have hput := PutFrameInBuffer_of_nonneg c N hN hsize hlen w.1 w.2
    obtain ⟨cf, hcf, hsz, hln, hslots⟩ :=
      ih { c with FrameBuffer := c.FrameBuffer.set (w.2 % N) w.1 } hsize
        (by simpa using hlen)
    refine ⟨cf, ?_, hsz, hln, ?_⟩
    · simp only [List.map_cons, putAll, hput, Option.bind]
      exact hcf
    · intro s hs
      rw [hslots s hs, lastWrite_cons]
      cases lastWrite N s ws with
      | some f => rfl
      | none =>
        simp only [List.getElem?_set]
        by_cases hw : w.2 % N = s
        · simp [hw, hlen, hs]
        · simp [hw]

/-- C1: for every capacity `N >= 1`, a `PutFrameInBuffer(f, i)` call with a
non-negative index succeeds, leaves `f` in slot `i mod N` and every other slot
unchanged; and after any sequence `ws` of such calls each slot `s` holds the frame
of the most recent write whose index is congruent to `s` modulo `N` (its initial
content when there was none). -/
theorem PutFrameInBuffer_ring (N : Nat) (hN : 1 ≤ N) (c : State)
    (hsize : c.BufferSize = N) (hlen : c.FrameBuffer.length = N)
    (f : Mat) (i : Nat) (ws : List (Mat × Nat)) :
    (∃ c', PutFrameInBuffer c f (i : Int) = some c' ∧
        c'.BufferSize = N ∧ c'.FrameBuffer.length = N ∧
        c'.FrameBuffer[i % N]? = some f ∧
        ∀ s, s ≠ i % N → c'.FrameBuffer[s]? = c.FrameBuffer[s]?) ∧
      (∃ cf, putAll c (ws.map fun w => (w.1, (w.2 : Int))) = some cf ∧
          ∀ s, s < N → cf.FrameBuffer[s]? =
            match lastWrite N s ws with
            | some g => some g
            | none => c.FrameBuffer[s]?) := by
  constructor
  · have hlt : i % N < N := Nat.mod_lt _ (by omega)
    refine ⟨_, PutFrameInBuffer_of_nonneg c N hN hsize hlen f i, hsize, by simpa using hlen,
      ?_, ?_⟩
    · simp [List.getElem?_set, hlen, hlt]
    · intro s hs
      simp [List.getElem?_set, Ne.symm hs]
  · obtain ⟨cf, hcf, _, _, hslots⟩ := putAll_of_nonneg N hN ws c hsize hlen
    exact ⟨cf, hcf, hslots⟩

/-- C1 (witness): a three-slot buffer of black frames, a write at index 7 and a
sequence of writes at indices 0, 4, 3 and 7. -/
theorem PutFrameInBuffer_ring_witness :
    (1 ≤ 3 ∧ (initState 0 3).BufferSize = (3 : Nat) ∧
        (initState 0 3).FrameBuffer.length = 3) ∧
      (∃ c', PutFrameInBuffer (initState 0 3) (stripeFrame 2 2) ((7 : Nat) : Int) = some c' ∧
        c'.BufferSize = (3 : Nat) ∧ c'.FrameBuffer.length = 3 ∧
        c'.FrameBuffer[7 % 3]? = some (stripeFrame 2 2) ∧
        ∀ s, s ≠ 7 % 3 → c'.FrameBuffer[s]? = (initState 0 3).FrameBuffer[s]?) ∧
      (∃ cf, putAll (initState 0 3)
            ([(blackFrame 2 2, 0), (stripeFrame 2 2, 4), (blackFrame 3 3, 3),
              (stripeFrame 3 3, 7)].map fun w => (w.1, (w.2 : Int))) = some cf ∧
          ∀ s, s < 3 → cf.FrameBuffer[s]? =
            match lastWrite 3 s
              [(blackFrame 2 2, 0), (stripeFrame 2 2, 4), (blackFrame 3 3, 3),
                (stripeFrame 3 3, 7)] with
            | some g => some g
            | none => (initState 0 3).FrameBuffer[s]?) :=
  ⟨⟨by decide, rfl, rfl⟩,
    PutFrameInBuffer_ring 3 (by decide) (initState 0 3) rfl rfl (stripeFrame 2 2) 7
      [(blackFrame 2 2, 0), (stripeFrame 2 2, 4), (blackFrame 3 3, 3), (stripeFrame 3 3, 7)]⟩

/-- C10 (counterexample): with four slots and index `-1` the computed position is
`-1`, outside `0 .. 3`, and the store is out of bounds. -/
theorem bufferPos_negative_index :
    bufferPos (initState 0 4) (-1) = -1 ∧
      (PutFrameInBuffer (initState 0 4) (blackFrame 1 1) (-1)).isNone = true := by
  constructor
  · decide
  · rfl

/-- C10 (amended): for every capacity `N >= 1` and every non-negative index,
`PutFrameInBuffer` computes a position `pos` with `0 <= pos < N`, and the store
into the `N`-slot buffer succeeds. -/
theorem bufferPos_in_bounds (N : Nat) (hN : 1 ≤ N) (c : State)
    (hsize : c.BufferSize = N) (hlen : c.FrameBuffer.length = N) (f : Mat) (index : Int)
    (hidx : 0 ≤ index) :
    0 ≤ bufferPos c index ∧ bufferPos c index < N ∧
      (PutFrameInBuffer c f index).isSome = true := by
  obtain ⟨i, rfl⟩ := Int.eq_ofNat_of_zero_le hidx
  have hlt : i % N < N := Nat.mod_lt _ (by omega)
  refine ⟨?_, ?_, ?_⟩
  · rw [bufferPos_of_nonneg c N i hsize]; exact Int.ofNat_nonneg _
  · rw [bufferPos_of_nonneg c N i hsize]; exact_mod_cast hlt
  · rw [PutFrameInBuffer_of_nonneg c N hN hsize hlen f i]; rfl

/-- C10 (witness): a four-slot buffer and index 7. -/
theorem bufferPos_in_bounds_witness :
    (1 ≤ 4 ∧ (initState 0 4).BufferSize = (4 : Nat) ∧
        (initState 0 4).FrameBuffer.length = 4 ∧ (0 : Int) ≤ 7) ∧
      (0 ≤ bufferPos (initState 0 4) 7 ∧ bufferPos (initState 0 4) 7 < (4 : Nat) ∧
        (PutFrameInBuffer (initState 0 4) (blackFrame 1 1) 7).isSome = true) :=
  ⟨⟨by decide, rfl, rfl, by decide⟩,
    bufferPos_in_bounds 4 (by decide) (initState 0 4) rfl rfl (blackFrame 1 1) 7 (by decide)⟩

/-! ## Double-precision arithmetic: theorems -/

/-- A value within half a unit of the integer `m` rounds to `m`. -/
theorem roundHalfEven_of_near (x : ℚ) (m : ℤ) (h1 : (m : ℚ) - 1 / 2 < x)
    (h2 : x < (m : ℚ) + 1 / 2) : roundHalfEven x = m := by
  unfold roundHalfEven
  by_cases hx : (m : ℚ) ≤ x
  · have hf : ⌊x⌋ = m := Int.floor_eq_iff.mpr ⟨hx, by linarith⟩
    simp only [hf]
    rw [if_pos (by linarith)]
  · have hf : ⌊x⌋ = m - 1 :=
      Int.floor_eq_iff.mpr ⟨by push_cast; linarith, by push_cast; linarith⟩
    simp only [hf]
    rw [if_neg (by push_cast; linarith), if_pos (by push_cast; linarith)]
    ring

/-- Rounding a positive value of the normal range whose binade is `e`: the
significand is rounded at the bit of weight `2 ^ (e - 52)`. -/
theorem roundDouble_of_binade (q : ℚ) (e m : ℤ) (hq : 0 < q) (he : -1022 ≤ e)
    (hlo : (2 : ℚ) ^ e ≤ q) (hhi : q < (2 : ℚ) ^ (e + 1))
    (hm : roundHalfEven (q / (2 : ℚ) ^ (e - 52)) = m) :
    roundDouble q = (m : ℚ) * (2 : ℚ) ^ (e - 52) := by
  have hlog : Int.log 2 q = e := by
    apply le_antisymm
    · have := (Int.lt_zpow_iff_log_lt (b := 2) (by norm_num) hq (x := e + 1)).mp
        (by simpa using hhi)
      omega
    · exact (Int.zpow_le_iff_le_log (b := 2) (by norm_num) hq).mp (by simpa using hlo)
  unfold roundDouble
  rw [if_neg (ne_of_gt hq), abs_of_pos hq, hlog]
  have hu : max (e - 52) (-1074) = e - 52 := max_eq_left (by omega)
  simp only [hu, hm]

/-- A double sum from its certificate: the binade `e` of the exact sum and the
integer `m` nearest to the sum in units of `2 ^ (e - 52)`. -/
theorem doubleAdd_of_cert (a b s : ℚ) (e m : ℤ) (hpos : 0 < a + b) (he : -1022 ≤ e)
    (hlo : (2 : ℚ) ^ e ≤ a + b) (hhi : a + b < (2 : ℚ) ^ (e + 1))
    (h1 : (m : ℚ) - 1 / 2 < (a + b) / (2 : ℚ) ^ (e - 52))
    (h2 : (a + b) / (2 : ℚ) ^ (e - 52) < (m : ℚ) + 1 / 2)
    (hs : (m : ℚ) * (2 : ℚ) ^ (e - 52) = s) : doubleAdd a b = s := by
  unfold doubleAdd
  rw [roundDouble_of_binade _ e m hpos he hlo hhi (roundHalfEven_of_near _ _ h1 h2), hs]

/-! ## The trigger delay: theorems -/

/-- One `IncrementTriggerDelay` call, whatever the camera answers, applies
`delayStep` to the member `delay`. -/
theorem IncrementTriggerDelay_delay (c : State) (cam : TriggerDelayCamera) :
    (IncrementTriggerDelay c cam).delay = delayStep c.delay := by
  unfold IncrementTriggerDelay SetCameraTriggerDelay delayStep
  by_cases h : doubleAdd c.delay (roundDouble (2 / 10000)) > roundDouble (11 / 1000) <;>
    cases cam.GetPropertyInfo_ok <;> cases cam.present <;> cases cam.GetProperty_ok <;>
    cases cam.SetProperty_ok <;> simp [h]

/-- A sequence of calls iterates `delayStep`, once per call. -/
theorem incrementCalls_delay (cams : List TriggerDelayCamera) :
    ∀ c : State, (incrementCalls c cams).delay = delayStep^[cams.length] c.delay := by
  induction cams with
  | nil => intro c; rfl
  | cons cam cams ih =>
    intro c
    simp only [incrementCalls, List.foldl_cons, List.length_cons, Function.iterate_succ_apply]
    have := ih (IncrementTriggerDelay c cam)
    simp only [incrementCalls] at this
    rw [this, IncrementTriggerDelay_delay]

/-- The literal `.0002` as a binary64 value, `0x1.a36e2eb1c432dp-13`. -/
theorem roundDouble_step_literal : roundDouble (2 / 10000) = 7378697629483821 / 2 ^ 65 := by
  rw [roundDouble_of_binade _ (-13) 7378697629483821 (by norm_num) (by norm_num) (by norm_num)
    (by norm_num) (roundHalfEven_of_near _ _ (by norm_num) (by norm_num))]
  norm_num

/-- The literal `.011` as a binary64 value, `0x1.6872b020c49bap-7`. -/
theorem roundDouble_bound_literal : roundDouble (11 / 1000) = 3170534137668829 / 2 ^ 58 := by
  rw [roundDouble_of_binade _ (-7) 6341068275337658 (by norm_num) (by norm_num) (by norm_num)
    (by norm_num) (roundHalfEven_of_near _ _ (by norm_num) (by norm_num))]
  norm_num

theorem delayStep_1 : delayStep (0) = 7378697629483821 / 2 ^ 65 := by
  unfold delayStep
  rw [roundDouble_step_literal, roundDouble_bound_literal,
    doubleAdd_of_cert _ _ (7378697629483821 / 2 ^ 65) (-13) 7378697629483821
      (by norm_num) (by norm_num) (by norm_num) (by norm_num) (by norm_num) (by norm_num)
      (by norm_num)]
  norm_num

theorem delayStep_2 : delayStep (7378697629483821 / 2 ^ 65) = 7378697629483821 / 2 ^ 64 := by
  unfold delayStep
  rw [roundDouble_step_literal, roundDouble_bound_literal,
    doubleAdd_of_cert _ _ (7378697629483821 / 2 ^ 64) (-12) 7378697629483821
      (by norm_num) (by norm_num) (by norm_num) (by norm_num) (by norm_num) (by norm_num)
      (by norm_num)]
  norm_num

theorem delayStep_3 : delayStep (7378697629483821 / 2 ^ 64) = 2767011611056433 / 2 ^ 62 := by
  unfold delayStep
  rw [roundDouble_step_literal, roundDouble_bound_literal,
    doubleAdd_of_cert _ _ (2767011611056433 / 2 ^ 62) (-11) 5534023222112866
      (by norm_num) (by norm_num) (by norm_num) (by norm_num) (by norm_num) (by norm_num)
      (by norm_num)]
  norm_num

theorem delayStep_4 : delayStep (2767011611056433 / 2 ^ 62) = 7378697629483821 / 2 ^ 63 := by
  unfold delayStep
  rw [roundDouble_step_literal, roundDouble_bound_literal,
    doubleAdd_of_cert _ _ (7378697629483821 / 2 ^ 63) (-11) 7378697629483821
      (by norm_num) (by norm_num) (by norm_num) (by norm_num) (by norm_num) (by norm_num)
      (by norm_num)]
  norm_num

theorem delayStep_5 : delayStep (7378697629483821 / 2 ^ 63) = 1152921504606847 / 2 ^ 60 := by
  unfold delayStep
  rw [roundDouble_step_literal, roundDouble_bound_literal,
    doubleAdd_of_cert _ _ (1152921504606847 / 2 ^ 60) (-10) 4611686018427388
      (by norm_num) (by norm_num) (by norm_num) (by norm_num) (by norm_num) (by norm_num)
      (by norm_num)]
  norm_num

theorem delayStep_6 : delayStep (1152921504606847 / 2 ^ 60) = 2767011611056433 / 2 ^ 61 := by
  unfold delayStep
  rw [roundDouble_step_literal, roundDouble_bound_literal,
    doubleAdd_of_cert _ _ (2767011611056433 / 2 ^ 61) (-10) 5534023222112866
      (by norm_num) (by norm_num) (by norm_num) (by norm_num) (by norm_num) (by norm_num)
      (by norm_num)]
  norm_num

theorem delayStep_7 : delayStep (2767011611056433 / 2 ^ 61) = 807045053224793 / 2 ^ 59 := by
  unfold delayStep
  rw [roundDouble_step_literal, roundDouble_bound_literal,
    doubleAdd_of_cert _ _ (807045053224793 / 2 ^ 59) (-10) 6456360425798344
      (by norm_num) (by norm_num) (by norm_num) (by norm_num) (by norm_num) (by norm_num)
      (by norm_num)]
  norm_num

theorem delayStep_8 : delayStep (807045053224793 / 2 ^ 59) = 3689348814741911 / 2 ^ 61 := by
  unfold delayStep
  rw [roundDouble_step_literal, roundDouble_bound_literal,
    doubleAdd_of_cert _ _ (3689348814741911 / 2 ^ 61) (-10) 7378697629483822
      (by norm_num) (by norm_num) (by norm_num) (by norm_num) (by norm_num) (by norm_num)
      (by norm_num)]
  norm_num

theorem delayStep_9 : delayStep (3689348814741911 / 2 ^ 61) = 2075258708292325 / 2 ^ 60 := by
  unfold delayStep
  rw [roundDouble_step_literal, roundDouble_bound_literal,
    doubleAdd_of_cert _ _ (2075258708292325 / 2 ^ 60) (-10) 8301034833169300
      (by norm_num) (by norm_num) (by norm_num) (by norm_num) (by norm_num) (by norm_num)
      (by norm_num)]
  norm_num

theorem delayStep_10 : delayStep (2075258708292325 / 2 ^ 60) = 4611686018427389 / 2 ^ 61 := by
  unfold delayStep
  rw [roundDouble_step_literal, roundDouble_bound_literal,
    doubleAdd_of_cert _ _ (4611686018427389 / 2 ^ 61) (-9) 4611686018427389
      (by norm_num) (by norm_num) (by norm_num) (by norm_num) (by norm_num) (by norm_num)
      (by norm_num)]
  norm_num

theorem delayStep_11 : delayStep (4611686018427389 / 2 ^ 61) = 317053413766883 / 2 ^ 57 := by
  unfold delayStep
  rw [roundDouble_step_literal, roundDouble_bound_literal,
    doubleAdd_of_cert _ _ (317053413766883 / 2 ^ 57) (-9) 5072854620270128
      (by norm_num) (by norm_num) (by norm_num) (by norm_num) (by norm_num) (by norm_num)
      (by norm_num)]
  norm_num

theorem delayStep_12 : delayStep (317053413766883 / 2 ^ 57) = 5534023222112867 / 2 ^ 61 := by
  unfold delayStep
  rw [roundDouble_step_literal, roundDouble_bound_literal,
    doubleAdd_of_cert _ _ (5534023222112867 / 2 ^ 61) (-9) 5534023222112867
      (by norm_num) (by norm_num) (by norm_num) (by norm_num) (by norm_num) (by norm_num)
      (by norm_num)]
  norm_num

theorem delayStep_13 : delayStep (5534023222112867 / 2 ^ 61) = 2997595911977803 / 2 ^ 60 := by
  unfold delayStep
  rw [roundDouble_step_literal, roundDouble_bound_literal,
    doubleAdd_of_cert _ _ (2997595911977803 / 2 ^ 60) (-9) 5995191823955606
      (by norm_num) (by norm_num) (by norm_num) (by norm_num) (by norm_num) (by norm_num)
      (by norm_num)]
  norm_num

theorem delayStep_14 : delayStep (2997595911977803 / 2 ^ 60) = 6456360425798345 / 2 ^ 61 := by
  unfold delayStep
  rw [roundDouble_step_literal, roundDouble_bound_literal,
    doubleAdd_of_cert _ _ (6456360425798345 / 2 ^ 61) (-9) 6456360425798345
      (by norm_num) (by norm_num) (by norm_num) (by norm_num) (by norm_num) (by norm_num)
      (by norm_num)]
  norm_num

theorem delayStep_15 : delayStep (6456360425798345 / 2 ^ 61) = 1729382256910271 / 2 ^ 59 := by
  unfold delayStep
  rw [roundDouble_step_literal, roundDouble_bound_literal,
    doubleAdd_of_cert _ _ (1729382256910271 / 2 ^ 59) (-9) 6917529027641084
      (by norm_num) (by norm_num) (by norm_num) (by norm_num) (by norm_num) (by norm_num)
      (by norm_num)]
  norm_num

theorem delayStep_16 : delayStep (1729382256910271 / 2 ^ 59) = 7378697629483823 / 2 ^ 61 := by
  unfold delayStep
  rw [roundDouble_step_literal, roundDouble_bound_literal,
    doubleAdd_of_cert _ _ (7378697629483823 / 2 ^ 61) (-9) 7378697629483823
      (by norm_num) (by norm_num) (by norm_num) (by norm_num) (by norm_num) (by norm_num)
      (by norm_num)]
  norm_num

theorem delayStep_17 : delayStep (7378697629483823 / 2 ^ 61) = 3919933115663281 / 2 ^ 60 := by
  unfold delayStep
  rw [roundDouble_step_literal, roundDouble_bound_literal,
    doubleAdd_of_cert _ _ (3919933115663281 / 2 ^ 60) (-9) 7839866231326562
      (by norm_num) (by norm_num) (by norm_num) (by norm_num) (by norm_num) (by norm_num)
      (by norm_num)]
  norm_num

theorem delayStep_18 : delayStep (3919933115663281 / 2 ^ 60) = 8301034833169301 / 2 ^ 61 := by
  unfold delayStep
  rw [roundDouble_step_literal, roundDouble_bound_literal,
    doubleAdd_of_cert _ _ (8301034833169301 / 2 ^ 61) (-9) 8301034833169301
      (by norm_num) (by norm_num) (by norm_num) (by norm_num) (by norm_num) (by norm_num)
      (by norm_num)]
  norm_num

theorem delayStep_19 : delayStep (8301034833169301 / 2 ^ 61) = 1095275429376505 / 2 ^ 58 := by
  unfold delayStep
  rw [roundDouble_step_literal, roundDouble_bound_literal,
    doubleAdd_of_cert _ _ (1095275429376505 / 2 ^ 58) (-9) 8762203435012040
      (by norm_num) (by norm_num) (by norm_num) (by norm_num) (by norm_num) (by norm_num)
      (by norm_num)]
  norm_num

theorem delayStep_20 : delayStep (1095275429376505 / 2 ^ 58) = 4611686018427389 / 2 ^ 60 := by
  unfold delayStep
  rw [roundDouble_step_literal, roundDouble_bound_literal,
    doubleAdd_of_cert _ _ (4611686018427389 / 2 ^ 60) (-8) 4611686018427389
      (by norm_num) (by norm_num) (by norm_num) (by norm_num) (by norm_num) (by norm_num)
      (by norm_num)]
  norm_num

theorem delayStep_21 : delayStep (4611686018427389 / 2 ^ 60) = 2421135159674379 / 2 ^ 59 := by
  unfold delayStep
  rw [roundDouble_step_literal, roundDouble_bound_literal,
    doubleAdd_of_cert _ _ (2421135159674379 / 2 ^ 59) (-8) 4842270319348758
      (by norm_num) (by norm_num) (by norm_num) (by norm_num) (by norm_num) (by norm_num)
      (by norm_num)]
  norm_num

theorem delayStep_22 : delayStep (2421135159674379 / 2 ^ 59) = 5072854620270127 / 2 ^ 60 := by
  unfold delayStep
  rw [roundDouble_step_literal, roundDouble_bound_literal,
    doubleAdd_of_cert _ _ (5072854620270127 / 2 ^ 60) (-8) 5072854620270127
      (by norm_num) (by norm_num) (by norm_num) (by norm_num) (by norm_num) (by norm_num)
      (by norm_num)]
  norm_num

theorem delayStep_23 : delayStep (5072854620270127 / 2 ^ 60) = 662929865148937 / 2 ^ 57 := by
  unfold delayStep
  rw [roundDouble_step_literal, roundDouble_bound_literal,
    doubleAdd_of_cert _ _ (662929865148937 / 2 ^ 57) (-8) 5303438921191496
      (by norm_num) (by norm_num) (by norm_num) (by norm_num) (by norm_num) (by norm_num)
      (by norm_num)]
  norm_num

theorem delayStep_24 : delayStep (662929865148937 / 2 ^ 57) = 5534023222112865 / 2 ^ 60 := by
  unfold delayStep
  rw [roundDouble_step_literal, roundDouble_bound_literal,
    doubleAdd_of_cert _ _ (5534023222112865 / 2 ^ 60) (-8) 5534023222112865
      (by norm_num) (by norm_num) (by norm_num) (by norm_num) (by norm_num) (by norm_num)
      (by norm_num)]
  norm_num

theorem delayStep_25 : delayStep (5534023222112865 / 2 ^ 60) = 2882303761517117 / 2 ^ 59 := by
  unfold delayStep
  rw [roundDouble_step_literal, roundDouble_bound_literal,
    doubleAdd_of_cert _ _ (2882303761517117 / 2 ^ 59) (-8) 5764607523034234
      (by norm_num) (by norm_num) (by norm_num) (by norm_num) (by norm_num) (by norm_num)
      (by norm_num)]
  norm_num

theorem delayStep_26 : delayStep (2882303761517117 / 2 ^ 59) = 5995191823955603 / 2 ^ 60 := by
  unfold delayStep
  rw [roundDouble_step_literal, roundDouble_bound_literal,
    doubleAdd_of_cert _ _ (5995191823955603 / 2 ^ 60) (-8) 5995191823955603
      (by norm_num) (by norm_num) (by norm_num) (by norm_num) (by norm_num) (by norm_num)
      (by norm_num)]
  norm_num

theorem delayStep_27 : delayStep (5995191823955603 / 2 ^ 60) = 1556444031219243 / 2 ^ 58 := by
  unfold delayStep
  rw [roundDouble_step_literal, roundDouble_bound_literal,
    doubleAdd_of_cert _ _ (1556444031219243 / 2 ^ 58) (-8) 6225776124876972
      (by norm_num) (by norm_num) (by norm_num) (by norm_num) (by norm_num) (by norm_num)
      (by norm_num)]
  norm_num

theorem delayStep_28 : delayStep (1556444031219243 / 2 ^ 58) = 6456360425798341 / 2 ^ 60 := by
  unfold delayStep
  rw [roundDouble_step_literal, roundDouble_bound_literal,
    doubleAdd_of_cert _ _ (6456360425798341 / 2 ^ 60) (-8) 6456360425798341
      (by norm_num) (by norm_num) (by norm_num) (by norm_num) (by norm_num) (by norm_num)
      (by norm_num)]
  norm_num

theorem delayStep_29 : delayStep (6456360425798341 / 2 ^ 60) = 3343472363359855 / 2 ^ 59 := by
  unfold delayStep
  rw [roundDouble_step_literal, roundDouble_bound_literal,
    doubleAdd_of_cert _ _ (3343472363359855 / 2 ^ 59) (-8) 6686944726719710
      (by norm_num) (by norm_num) (by norm_num) (by norm_num) (by norm_num) (by norm_num)
      (by norm_num)]
  norm_num

theorem delayStep_30 : delayStep (3343472363359855 / 2 ^ 59) = 6917529027641079 / 2 ^ 60 := by
  unfold delayStep
  rw [roundDouble_step_literal, roundDouble_bound_literal,
    doubleAdd_of_cert _ _ (6917529027641079 / 2 ^ 60) (-8) 6917529027641079
      (by norm_num) (by norm_num) (by norm_num) (by norm_num) (by norm_num) (by norm_num)
      (by norm_num)]
  norm_num

theorem delayStep_31 : delayStep (6917529027641079 / 2 ^ 60) = 446757083035153 / 2 ^ 56 := by
  unfold delayStep
  rw [roundDouble_step_literal, roundDouble_bound_literal,
    doubleAdd_of_cert _ _ (446757083035153 / 2 ^ 56) (-8) 7148113328562448
      (by norm_num) (by norm_num) (by norm_num) (by norm_num) (by norm_num) (by norm_num)
      (by norm_num)]
  norm_num

theorem delayStep_32 : delayStep (446757083035153 / 2 ^ 56) = 7378697629483817 / 2 ^ 60 := by
  unfold delayStep
  rw [roundDouble_step_literal, roundDouble_bound_literal,
    doubleAdd_of_cert _ _ (7378697629483817 / 2 ^ 60) (-8) 7378697629483817
      (by norm_num) (by norm_num) (by norm_num) (by norm_num) (by norm_num) (by norm_num)
      (by norm_num)]
  norm_num

theorem delayStep_33 : delayStep (7378697629483817 / 2 ^ 60) = 3804640965202593 / 2 ^ 59 := by
  unfold delayStep
  rw [roundDouble_step_literal, roundDouble_bound_literal,
    doubleAdd_of_cert _ _ (3804640965202593 / 2 ^ 59) (-8) 7609281930405186
      (by norm_num) (by norm_num) (by norm_num) (by norm_num) (by norm_num) (by norm_num)
      (by norm_num)]
  norm_num

theorem delayStep_34 : delayStep (3804640965202593 / 2 ^ 59) = 7839866231326555 / 2 ^ 60 := by
  unfold delayStep
  rw [roundDouble_step_literal, roundDouble_bound_literal,
    doubleAdd_of_cert _ _ (7839866231326555 / 2 ^ 60) (-8) 7839866231326555
      (by norm_num) (by norm_num) (by norm_num) (by norm_num) (by norm_num) (by norm_num)
      (by norm_num)]
  norm_num

theorem delayStep_35 : delayStep (7839866231326555 / 2 ^ 60) = 2017612633061981 / 2 ^ 58 := by
  unfold delayStep
  rw [roundDouble_step_literal, roundDouble_bound_literal,
    doubleAdd_of_cert _ _ (2017612633061981 / 2 ^ 58) (-8) 8070450532247924
      (by norm_num) (by norm_num) (by norm_num) (by norm_num) (by norm_num) (by norm_num)
      (by norm_num)]
  norm_num

theorem delayStep_36 : delayStep (2017612633061981 / 2 ^ 58) = 8301034833169293 / 2 ^ 60 := by
  unfold delayStep
  rw [roundDouble_step_literal, roundDouble_bound_literal,
    doubleAdd_of_cert _ _ (8301034833169293 / 2 ^ 60) (-8) 8301034833169293
      (by norm_num) (by norm_num) (by norm_num) (by norm_num) (by norm_num) (by norm_num)
      (by norm_num)]
  norm_num

theorem delayStep_37 : delayStep (8301034833169293 / 2 ^ 60) = 4265809567045331 / 2 ^ 59 := by
  unfold delayStep
  rw [roundDouble_step_literal, roundDouble_bound_literal,
    doubleAdd_of_cert _ _ (4265809567045331 / 2 ^ 59) (-8) 8531619134090662
      (by norm_num) (by norm_num) (by norm_num) (by norm_num) (by norm_num) (by norm_num)
      (by norm_num)]
  norm_num

theorem delayStep_38 : delayStep (4265809567045331 / 2 ^ 59) = 8762203435012031 / 2 ^ 60 := by
  unfold delayStep
  rw [roundDouble_step_literal, roundDouble_bound_literal,
    doubleAdd_of_cert _ _ (8762203435012031 / 2 ^ 60) (-8) 8762203435012031
      (by norm_num) (by norm_num) (by norm_num) (by norm_num) (by norm_num) (by norm_num)
      (by norm_num)]
  norm_num

theorem delayStep_39 : delayStep (8762203435012031 / 2 ^ 60) = 1124098466991675 / 2 ^ 57 := by
  unfold delayStep
  rw [roundDouble_step_literal, roundDouble_bound_literal,
    doubleAdd_of_cert _ _ (1124098466991675 / 2 ^ 57) (-8) 8992787735933400
      (by norm_num) (by norm_num) (by norm_num) (by norm_num) (by norm_num) (by norm_num)
      (by norm_num)]
  norm_num

theorem delayStep_40 : delayStep (1124098466991675 / 2 ^ 57) = 4611686018427385 / 2 ^ 59 := by
  unfold delayStep
  rw [roundDouble_step_literal, roundDouble_bound_literal,
    doubleAdd_of_cert _ _ (4611686018427385 / 2 ^ 59) (-7) 4611686018427385
      (by norm_num) (by norm_num) (by norm_num) (by norm_num) (by norm_num) (by norm_num)
      (by norm_num)]
  norm_num

theorem delayStep_41 : delayStep (4611686018427385 / 2 ^ 59) = 2363489084444035 / 2 ^ 58 := by
  unfold delayStep
  rw [roundDouble_step_literal, roundDouble_bound_literal,
    doubleAdd_of_cert _ _ (2363489084444035 / 2 ^ 58) (-7) 4726978168888070
      (by norm_num) (by norm_num) (by norm_num) (by norm_num) (by norm_num) (by norm_num)
      (by norm_num)]
  norm_num

theorem delayStep_42 : delayStep (2363489084444035 / 2 ^ 58) = 4842270319348755 / 2 ^ 59 := by
  unfold delayStep
  rw [roundDouble_step_literal, roundDouble_bound_literal,
    doubleAdd_of_cert _ _ (4842270319348755 / 2 ^ 59) (-7) 4842270319348755
      (by norm_num) (by norm_num) (by norm_num) (by norm_num) (by norm_num) (by norm_num)
      (by norm_num)]
  norm_num

theorem delayStep_43 : delayStep (4842270319348755 / 2 ^ 59) = 154923827181545 / 2 ^ 54 := by
  unfold delayStep
  rw [roundDouble_step_literal, roundDouble_bound_literal,
    doubleAdd_of_cert _ _ (154923827181545 / 2 ^ 54) (-7) 4957562469809440
      (by norm_num) (by norm_num) (by norm_num) (by norm_num) (by norm_num) (by norm_num)
      (by norm_num)]
  norm_num

theorem delayStep_44 : delayStep (154923827181545 / 2 ^ 54) = 5072854620270125 / 2 ^ 59 := by
  unfold delayStep
  rw [roundDouble_step_literal, roundDouble_bound_literal,
    doubleAdd_of_cert _ _ (5072854620270125 / 2 ^ 59) (-7) 5072854620270125
      (by norm_num) (by norm_num) (by norm_num) (by norm_num) (by norm_num) (by norm_num)
      (by norm_num)]
  norm_num

theorem delayStep_45 : delayStep (5072854620270125 / 2 ^ 59) = 2594073385365405 / 2 ^ 58 := by
  unfold delayStep
  rw [roundDouble_step_literal, roundDouble_bound_literal,
    doubleAdd_of_cert _ _ (2594073385365405 / 2 ^ 58) (-7) 5188146770730810
      (by norm_num) (by norm_num) (by norm_num) (by norm_num) (by norm_num) (by norm_num)
      (by norm_num)]
  norm_num

theorem delayStep_46 : delayStep (2594073385365405 / 2 ^ 58) = 5303438921191495 / 2 ^ 59 := by
  unfold delayStep
  rw [roundDouble_step_literal, roundDouble_bound_literal,
    doubleAdd_of_cert _ _ (5303438921191495 / 2 ^ 59) (-7) 5303438921191495
      (by norm_num) (by norm_num) (by norm_num) (by norm_num) (by norm_num) (by norm_num)
      (by norm_num)]
  norm_num

theorem delayStep_47 : delayStep (5303438921191495 / 2 ^ 59) = 1354682767913045 / 2 ^ 57 := by
  unfold delayStep
  rw [roundDouble_step_literal, roundDouble_bound_literal,
    doubleAdd_of_cert _ _ (1354682767913045 / 2 ^ 57) (-7) 5418731071652180
      (by norm_num) (by norm_num) (by norm_num) (by norm_num) (by norm_num) (by norm_num)
      (by norm_num)]
  norm_num

theorem delayStep_48 : delayStep (1354682767913045 / 2 ^ 57) = 5534023222112865 / 2 ^ 59 := by
  unfold delayStep
  rw [roundDouble_step_literal, roundDouble_bound_literal,
    doubleAdd_of_cert _ _ (5534023222112865 / 2 ^ 59) (-7) 5534023222112865
      (by norm_num) (by norm_num) (by norm_num) (by norm_num) (by norm_num) (by norm_num)
      (by norm_num)]
  norm_num

theorem delayStep_49 : delayStep (5534023222112865 / 2 ^ 59) = 2824657686286775 / 2 ^ 58 := by
  unfold delayStep
  rw [roundDouble_step_literal, roundDouble_bound_literal,
    doubleAdd_of_cert _ _ (2824657686286775 / 2 ^ 58) (-7) 5649315372573550
      (by norm_num) (by norm_num) (by norm_num) (by norm_num) (by norm_num) (by norm_num)
      (by norm_num)]
  norm_num

theorem delayStep_50 : delayStep (2824657686286775 / 2 ^ 58) = 5764607523034235 / 2 ^ 59 := by
  unfold delayStep
  rw [roundDouble_step_literal, roundDouble_bound_literal,
    doubleAdd_of_cert _ _ (5764607523034235 / 2 ^ 59) (-7) 5764607523034235
      (by norm_num) (by norm_num) (by norm_num) (by norm_num) (by norm_num) (by norm_num)
      (by norm_num)]
  norm_num

theorem delayStep_51 : delayStep (5764607523034235 / 2 ^ 59) = 734987459186865 / 2 ^ 56 := by
  unfold delayStep
  rw [roundDouble_step_literal, roundDouble_bound_literal,
    doubleAdd_of_cert _ _ (734987459186865 / 2 ^ 56) (-7) 5879899673494920
      (by norm_num) (by norm_num) (by norm_num) (by norm_num) (by norm_num) (by norm_num)
      (by norm_num)]
  norm_num

theorem delayStep_52 : delayStep (734987459186865 / 2 ^ 56) = 5995191823955605 / 2 ^ 59 := by
  unfold delayStep
  rw [roundDouble_step_literal, roundDouble_bound_literal,
    doubleAdd_of_cert _ _ (5995191823955605 / 2 ^ 59) (-7) 5995191823955605
      (by norm_num) (by norm_num) (by norm_num) (by norm_num) (by norm_num) (by norm_num)
      (by norm_num)]
  norm_num

theorem delayStep_53 : delayStep (5995191823955605 / 2 ^ 59) = 3055241987208145 / 2 ^ 58 := by
  unfold delayStep
  rw [roundDouble_step_literal, roundDouble_bound_literal,
    doubleAdd_of_cert _ _ (3055241987208145 / 2 ^ 58) (-7) 6110483974416290
      (by norm_num) (by norm_num) (by norm_num) (by norm_num) (by norm_num) (by norm_num)
      (by norm_num)]
  norm_num

theorem delayStep_54 : delayStep (3055241987208145 / 2 ^ 58) = 6225776124876975 / 2 ^ 59 := by
  unfold delayStep
  rw [roundDouble_step_literal, roundDouble_bound_literal,
    doubleAdd_of_cert _ _ (6225776124876975 / 2 ^ 59) (-7) 6225776124876975
      (by norm_num) (by norm_num) (by norm_num) (by norm_num) (by norm_num) (by norm_num)
      (by norm_num)]
  norm_num

theorem delayStep_55 : delayStep (6225776124876975 / 2 ^ 59) = 0 := by
  unfold delayStep
  rw [roundDouble_step_literal, roundDouble_bound_literal,
    doubleAdd_of_cert _ _ (1585267068834415 / 2 ^ 57) (-7) 6341068275337660
      (by norm_num) (by norm_num) (by norm_num) (by norm_num) (by norm_num) (by norm_num)
      (by norm_num)]
  norm_num

/-- Each entry of the table is `delayStep` of the entry before it. -/
theorem sweepTable_step (k : Nat) (hk : k < 55) :
    delayStep (sweepTable.getD k 0) = sweepTable.getD (k + 1) 0 := by
  interval_cases k
  · exact delayStep_1
  · exact delayStep_2
  · exact delayStep_3
  · exact delayStep_4
  · exact delayStep_5
  · exact delayStep_6
  · exact delayStep_7
  · exact delayStep_8
  · exact delayStep_9
  · exact delayStep_10
  · exact delayStep_11
  · exact delayStep_12
  · exact delayStep_13
  · exact delayStep_14
  · exact delayStep_15
  · exact delayStep_16
  · exact delayStep_17
  · exact delayStep_18
  · exact delayStep_19
  · exact delayStep_20
  · exact delayStep_21
  · exact delayStep_22
  · exact delayStep_23
  · exact delayStep_24
  · exact delayStep_25
  · exact delayStep_26
  · exact delayStep_27
  · exact delayStep_28
  · exact delayStep_29
  · exact delayStep_30
  · exact delayStep_31
  · exact delayStep_32
  · exact delayStep_33
  · exact delayStep_34
  · exact delayStep_35
  · exact delayStep_36
  · exact delayStep_37
  · exact delayStep_38
  · exact delayStep_39
  · exact delayStep_40
  · exact delayStep_41
  · exact delayStep_42
  · exact delayStep_43
  · exact delayStep_44
  · exact delayStep_45
  · exact delayStep_46
  · exact delayStep_47
  · exact delayStep_48
  · exact delayStep_49
  · exact delayStep_50
  · exact delayStep_51
  · exact delayStep_52
  · exact delayStep_53
  · exact delayStep_54
  · exact delayStep_55

/-- The delay after `k <= 55` calls from 0 is entry `k` of the table. -/
theorem delayStep_iterate (k : Nat) (hk : k ≤ 55) :
    delayStep^[k] 0 = sweepTable.getD k 0 := by
  induction k with
  | zero => rfl
  | succ k ih =>
    rw [Function.iterate_succ_apply', ih (by omega)]
    exact sweepTable_step k (by omega)

/-- The first 54 entries of the table are within `10^-17` of `k * 0.0002`, and
entry 55 is 0. -/
theorem sweepTable_values (k : Nat) (hk : k ≤ 55) :
    if k = 55 then sweepTable.getD k 0 = 0
    else |sweepTable.getD k 0 - (k : ℚ) * (2 / 10000)| ≤ 1 / 10 ^ 17 := by
  interval_cases k <;> simp only [sweepTable, List.getD_cons_succ, List.getD_cons_zero] <;>
    norm_num [abs_le]

/-- C2 (counterexample): after three calls from delay 0 the delay is the double
`0x1.3a92a30553262p-11`, which as an exact rational is not `3 * 0.0002`. -/
theorem IncrementTriggerDelay_third_call_inexact :
    (incrementCalls (initState 0 0)
        (List.replicate 3 (TriggerDelayCamera.mk true true true true))).delay
        = 2767011611056433 / 2 ^ 62 ∧
      (incrementCalls (initState 0 0)
        (List.replicate 3 (TriggerDelayCamera.mk true true true true))).delay
        ≠ 3 * (2 / 10000) := by
  have h : (incrementCalls (initState 0 0)
      (List.replicate 3 (TriggerDelayCamera.mk true true true true))).delay
      = 2767011611056433 / 2 ^ 62 := by
    rw [incrementCalls_delay]
    have h0 : (initState 0 0).delay = 0 := rfl
    simp only [List.length_replicate, h0]
    exact delayStep_iterate 3 (by omega)
  refine ⟨h, ?_⟩
  rw [h]
  norm_num

/-- C2 (amended): starting from delay 0, with the delay a double as in the code,
the `k`-th call of `IncrementTriggerDelay` leaves the rounded running sum, which
is within `10^-17` of `k * 0.0002`, for every `k` from 1 to 54 (and trivially for
`k = 0`), and the 55th call, whose running sum `0x1.6872b020c49bcp-7` is greater
than the double `.011`, wraps the delay to 0; the camera's answers play no part. -/
theorem IncrementTriggerDelay_sweep (c : State) (cams : List TriggerDelayCamera)
    (h0 : c.delay = 0) (hk : cams.length ≤ 55) :
    if cams.length = 55 then (incrementCalls c cams).delay = 0
    else |(incrementCalls c cams).delay - (cams.length : ℚ) * (2 / 10000)| ≤ 1 / 10 ^ 17 := by
  rw [incrementCalls_delay, h0, delayStep_iterate _ hk]
  exact sweepTable_values _ hk

/-- C2 (witness): 55 calls from the initial state, with a camera that accepts
every request: the 55th call wraps the delay to 0. -/
theorem IncrementTriggerDelay_sweep_witness :
    ((initState 0 0).delay = 0 ∧
        (List.replicate 55 (TriggerDelayCamera.mk true true true true)).length ≤ 55) ∧
      (if (List.replicate 55 (TriggerDelayCamera.mk true true true true)).length = 55 then
        (incrementCalls (initState 0 0)
          (List.replicate 55 (TriggerDelayCamera.mk true true true true))).delay = 0
      else
        |(incrementCalls (initState 0 0)
            (List.replicate 55 (TriggerDelayCamera.mk true true true true))).delay
          - ((List.replicate 55 (TriggerDelayCamera.mk true true true true)).length : ℚ)
            * (2 / 10000)| ≤ 1 / 10 ^ 17) :=
  ⟨⟨rfl, by decide⟩,
    IncrementTriggerDelay_sweep (initState 0 0)
      (List.replicate 55 (TriggerDelayCamera.mk true true true true)) rfl (by decide)⟩

/-! ## The scan loop -/

theorem Scan.hit_hit (s : Scan) (i : Nat) : (s.hit i).hit i = s.hit i := by
  simp [Scan.hit]

/-- The inner loop over the first `n` columns of row `i`: the state is untouched
when none of them is illuminated, and is `s.hit i` otherwise. -/
theorem scanRow_cols (m : MatHSV) (i : Nat) (s : Scan) (n : Nat) :
    (¬ litBefore m i n → (List.range n).foldl (scanPixel m i) s = s) ∧
      (litBefore m i n → (List.range n).foldl (scanPixel m i) s = s.hit i) := by
  induction n with
  | zero =>
    refine ⟨fun _ => rfl, ?_⟩
    rintro ⟨j, hj, _⟩
    omega
  | succ n ih =>
    rw [List.range_succ, List.foldl_append]
    simp only [List.foldl_cons, List.foldl_nil]
    by_cases hn : 90 < m.val2 i n
    · have hlit : litBefore m i (n + 1) := ⟨n, by omega, hn⟩
      refine ⟨fun h => absurd hlit h, fun _ => ?_⟩
      by_cases hprev : litBefore m i n
      · rw [ih.2 hprev]
        simp only [scanPixel, gt_iff_lt, hn, if_true]
        exact Scan.hit_hit s i
      · rw [ih.1 hprev]
        simp only [scanPixel, gt_iff_lt, hn, if_true]
        rfl
    · have hiff : litBefore m i (n + 1) ↔ litBefore m i n := by
        constructor
        · rintro ⟨j, hj, hv⟩
          have : j ≠ n := fun h => hn (h ▸ hv)
          exact ⟨j, by omega, hv⟩
        · rintro ⟨j, hj, hv⟩
          exact ⟨j, by omega, hv⟩
      have hstep : ∀ t : Scan, scanPixel m i t n = t := by
        intro t
        simp only [scanPixel, gt_iff_lt, hn, if_false]
      rw [hstep]
      exact ⟨fun h => ih.1 (fun h' => h (hiff.2 h')), fun h => ih.2 (hiff.1 h)⟩

theorem scan_rows_inv (m : MatHSV) (n : Nat) :
    ScanInv m n
      ((List.range n).foldl (scanRow m) { max_i := 0, min_i := m.rows, first := true }) := by
  induction n with
  | zero => exact Or.inl ⟨rfl, fun i hi => by omega⟩
  | succ n ih =>
    rw [List.range_succ, List.foldl_append]
    simp only [List.foldl_cons, List.foldl_nil]
    generalize (List.range n).foldl (scanRow m)
      { max_i := 0, min_i := m.rows, first := true } = prev at ih ⊢
    by_cases hn : litBefore m n m.cols
    · have hrow : scanRow m prev n = prev.hit n := (scanRow_cols m n prev m.cols).2 hn
      rw [hrow]
      right
      rcases ih with ⟨hprev, hdark⟩ | ⟨hfirst, ⟨hmin, hminlit, hleast⟩, _⟩
      · subst hprev
        refine ⟨rfl, ⟨?_, hn, ?_⟩, ⟨?_, hn, ?_⟩⟩
        · simp [Scan.hit]
        · intro i hi hlit
          have : ¬ i < n := fun h => hdark i h hlit
          simp only [Scan.hit, if_true]
          omega
        · simp [Scan.hit]
        · intro i hi _
          simp only [Scan.hit]
          omega
      · have hmin_eq : (prev.hit n).min_i = prev.min_i := by simp [Scan.hit, hfirst]
        refine ⟨rfl, ⟨?_, ?_, ?_⟩, ⟨?_, hn, ?_⟩⟩
        · rw [hmin_eq]; omega
        · rw [hmin_eq]; exact hminlit
        · intro i hi hlit
          rw [hmin_eq]
          by_cases h : i < n
          · exact hleast i h hlit
          · omega
        · simp [Scan.hit]
        · intro i hi _
          simp only [Scan.hit]
          omega
    · have hrow : scanRow m prev n = prev := (scanRow_cols m n prev m.cols).1 hn
      rw [hrow]
      have hlt : ∀ i, i < n + 1 → litBefore m i m.cols → i < n := by
        intro i hi hlit
        have : i ≠ n := fun h => hn (h ▸ hlit)
        omega
      rcases ih with ⟨hprev, hdark⟩ | ⟨hfirst, ⟨hmin, hminlit, hleast⟩, ⟨hmax, hmaxlit, hgreatest⟩⟩
      · exact Or.inl ⟨hprev, fun i hi hlit => hdark i (hlt i hi hlit) hlit⟩
      · exact Or.inr ⟨hfirst, ⟨by omega, hminlit, fun i hi hlit => hleast i (hlt i hi hlit) hlit⟩,
          ⟨by omega, hmaxlit, fun i hi hlit => hgreatest i (hlt i hi hlit) hlit⟩⟩

theorem litRow_iff (m : MatHSV) (i : Nat) :
    litRow m i ↔ i < m.rows ∧ litBefore m i m.cols := Iff.rfl

/-- With no illuminated pixel the scan ends in its initial state
`max_i = 0, min_i = rows`. -/
theorem scan_of_dark (m : MatHSV)
    (hdark : ∀ i j, i < m.rows → j < m.cols → m.val2 i j ≤ 90) :
    scan m = { max_i := 0, min_i := m.rows, first := true } := by
  rcases scan_rows_inv m m.rows with ⟨h, _⟩ | ⟨_, ⟨hmin, ⟨j, hj, hv⟩, _⟩, _⟩
  · exact h
  · have := hdark _ j hmin hj
    omega

/-- With an illuminated pixel the scan ends with `min_i` the smallest and `max_i`
the largest illuminated row. -/
theorem scan_of_lit (m : MatHSV) (hlit : ∃ i, litRow m i) :
    (litRow m (scan m).min_i ∧ ∀ i, litRow m i → (scan m).min_i ≤ i) ∧
      (litRow m (scan m).max_i ∧ ∀ i, litRow m i → i ≤ (scan m).max_i) := by
  obtain ⟨i0, hi0, hl0⟩ := hlit
  rcases scan_rows_inv m m.rows with ⟨_, hdark⟩ | ⟨_, ⟨hmin, hminlit, hleast⟩, ⟨hmax, hmaxlit, hgreatest⟩⟩
  · exact absurd hl0 (hdark i0 hi0)
  · exact ⟨⟨⟨hmin, hminlit⟩, fun i hi => hleast i hi.1 hi.2⟩,
      ⟨⟨hmax, hmaxlit⟩, fun i hi => hgreatest i hi.1 hi.2⟩⟩


/-! ## The envelope update -/

theorem updateLines_BottomLine (c : State) (s : Scan) :
    (updateLines c s).BottomLine = max c.BottomLine (s.max_i : Int) := by
  unfold updateLines GetBottomLine GetTopLine SetBottomLine SetTopLine
  by_cases h : (s.max_i : Int) > c.BottomLine
  · have hm : max c.BottomLine (s.max_i : Int) = s.max_i := max_eq_right (le_of_lt h)
    simp only [h, if_true, hm]
    split <;> rfl
  · have hm : max c.BottomLine (s.max_i : Int) = c.BottomLine := max_eq_left (not_lt.mp h)
    simp only [h, if_false, hm]
    split <;> rfl

theorem updateLines_TopLine (c : State) (s : Scan) :
    (updateLines c s).TopLine = min c.TopLine (s.min_i : Int) := by
  unfold updateLines GetBottomLine GetTopLine SetBottomLine SetTopLine
  have htop : ∀ c1 : State, c1.TopLine = c.TopLine →
      (if (s.min_i : Int) < c1.TopLine then { c1 with TopLine := (s.min_i : Int) } else c1).TopLine
        = min c.TopLine (s.min_i : Int) := by
    intro c1 h1
    by_cases h : (s.min_i : Int) < c1.TopLine
    · rw [if_pos h, ← h1]
      exact (min_eq_right (le_of_lt h)).symm
    · rw [if_neg h, ← h1]
      exact (min_eq_left (not_lt.mp h)).symm
  apply htop
  split <;> rfl

/-- An update that changes neither line returns the state itself. -/
theorem updateLines_eq_self (c : State) (s : Scan)
    (hb : (s.max_i : Int) ≤ c.BottomLine) (ht : c.TopLine ≤ (s.min_i : Int)) :
    updateLines c s = c := by
  unfold updateLines GetBottomLine GetTopLine SetBottomLine SetTopLine
  rw [if_neg (not_lt.mpr hb)]
  simp only
  rw [if_neg (not_lt.mpr ht)]

/-- The state a call leaves is either the state it started from or the result of
the envelope update on some scan. -/
theorem FindTopBottomLines_state (c : State) (mat_color_ref mat_color : Mat) :
    (FindTopBottomLines c mat_color_ref mat_color).state = c ∨
      ∃ s, (FindTopBottomLines c mat_color_ref mat_color).state = updateLines c s := by
  unfold FindTopBottomLines
  split
  · exact Or.inl rfl
  · split
    · exact Or.inl rfl
    · simp only
      split
      · exact Or.inl rfl
      · exact Or.inr ⟨_, rfl⟩

/-- One call never raises `TopLine` and never lowers `BottomLine`. -/
theorem FindTopBottomLines_widens (c : State) (mat_color_ref mat_color : Mat) :
    (FindTopBottomLines c mat_color_ref mat_color).state.TopLine ≤ c.TopLine ∧
      c.BottomLine ≤ (FindTopBottomLines c mat_color_ref mat_color).state.BottomLine := by
  rcases FindTopBottomLines_state c mat_color_ref mat_color with h | ⟨s, h⟩
  · rw [h]
    exact ⟨le_refl _, le_refl _⟩
  · rw [h, updateLines_TopLine, updateLines_BottomLine]
    exact ⟨min_le_left _ _, le_max_left _ _⟩

/-- C3: for every prior envelope and every pair of input frames, one call of
`FindTopBottomLines` leaves `TopLine` no larger and `BottomLine` no smaller than
before, and so does any sequence of calls. -/
theorem FindTopBottomLines_envelope_monotone (c : State) (mat_color_ref mat_color : Mat)
    (calls : List (Mat × Mat)) :
    ((FindTopBottomLines c mat_color_ref mat_color).state.TopLine ≤ c.TopLine ∧
        c.BottomLine ≤ (FindTopBottomLines c mat_color_ref mat_color).state.BottomLine) ∧
      ((findAll c calls).TopLine ≤ c.TopLine ∧ c.BottomLine ≤ (findAll c calls).BottomLine) := by
  refine ⟨FindTopBottomLines_widens c mat_color_ref mat_color, ?_⟩
  induction calls generalizing c with
  | nil => exact ⟨le_refl _, le_refl _⟩
  | cons p ps ih =>
    have h1 := FindTopBottomLines_widens c p.1 p.2
    have h2 := ih (FindTopBottomLines c p.1 p.2).state
    simp only [findAll, List.foldl_cons] at h2 ⊢
    exact ⟨le_trans h2.1 h1.1, le_trans h1.2 h2.2⟩

/-- C6: whenever the two frames do not both have data, type `CV_8UC3` and the same
numbers of rows and columns, the call signals an error (it prints the invalid-data
message, or `cv::subtract` throws) and leaves the state, `TopLine` and
`BottomLine` included, as it was. -/
theorem FindTopBottomLines_invalid_frames (c : State) (mat_color_ref mat_color : Mat)
    (h : ¬ (mat_color_ref.data = true ∧ mat_color_ref.type = CV_8UC3 ∧
        mat_color.data = true ∧ mat_color.type = CV_8UC3 ∧
        mat_color_ref.rows = mat_color.rows ∧ mat_color_ref.cols = mat_color.cols)) :
    (FindTopBottomLines c mat_color_ref mat_color).signalsError = true ∧
      (FindTopBottomLines c mat_color_ref mat_color).state = c ∧
      (FindTopBottomLines c mat_color_ref mat_color).state.TopLine = c.TopLine ∧
      (FindTopBottomLines c mat_color_ref mat_color).state.BottomLine = c.BottomLine := by
  have key : (FindTopBottomLines c mat_color_ref mat_color).signalsError = true ∧
      (FindTopBottomLines c mat_color_ref mat_color).state = c := by
    unfold FindTopBottomLines
    split
    · exact ⟨by simp [CallResult.signalsError], rfl⟩
    · rename_i hguard
      simp only [Bool.or_eq_true, Bool.not_eq_true', bne_iff_ne, ne_eq, not_or,
        Bool.not_eq_false, Decidable.not_not] at hguard
      obtain ⟨⟨⟨hrd, hrt⟩, hld⟩, hlt⟩ := hguard
      have hsub : subtract mat_color mat_color_ref = none := by
        unfold subtract
        rw [if_neg]
        rintro ⟨hr, hc, _⟩
        exact h ⟨hrd, hrt, hld, hlt, hr.symm, hc.symm⟩
      rw [hsub]
      exact ⟨by simp [CallResult.signalsError], rfl⟩
  exact ⟨key.1, key.2, by rw [key.2], by rw [key.2]⟩

/-- C6 (witness): a 10x10 reference frame and a 10x12 live frame. -/
theorem FindTopBottomLines_invalid_frames_witness :
    ¬ ((blackFrame 10 10).data = true ∧ (blackFrame 10 10).type = CV_8UC3 ∧
        (stripeFrame 10 12).data = true ∧ (stripeFrame 10 12).type = CV_8UC3 ∧
        (blackFrame 10 10).rows = (stripeFrame 10 12).rows ∧
        (blackFrame 10 10).cols = (stripeFrame 10 12).cols) ∧
      ((FindTopBottomLines (initState 10 1) (blackFrame 10 10) (stripeFrame 10 12)).signalsError
          = true ∧
        (FindTopBottomLines (initState 10 1) (blackFrame 10 10) (stripeFrame 10 12)).state
          = initState 10 1 ∧
        (FindTopBottomLines (initState 10 1) (blackFrame 10 10) (stripeFrame 10 12)).state.TopLine
          = (initState 10 1).TopLine ∧
        (FindTopBottomLines (initState 10 1) (blackFrame 10 10)
            (stripeFrame 10 12)).state.BottomLine
          = (initState 10 1).BottomLine) :=
  ⟨by simp [blackFrame, stripeFrame],
    FindTopBottomLines_invalid_frames (initState 10 1) (blackFrame 10 10) (stripeFrame 10 12)
      (by simp [blackFrame, stripeFrame])⟩


/-! ## Minimum and maximum over a kernel -/

theorem foldl_min_le_init (l : List Nat) (a : Nat) : l.foldl min a ≤ a := by
  induction l generalizing a with
  | nil => exact le_refl _
  | cons x xs ih => exact le_trans (ih (min a x)) (min_le_left _ _)

theorem foldl_min_le_of_mem (l : List Nat) (a x : Nat) (hx : x ∈ l) : l.foldl min a ≤ x := by
  induction l generalizing a with
  | nil => cases hx
  | cons y ys ih =>
    rcases List.mem_cons.mp hx with h | h
    · subst h
      exact le_trans (foldl_min_le_init ys (min a x)) (min_le_right _ _)
    · exact ih (min a y) h

theorem le_foldl_min (l : List Nat) (a b : Nat) (ha : b ≤ a) (hl : ∀ x ∈ l, b ≤ x) :
    b ≤ l.foldl min a := by
  induction l generalizing a with
  | nil => exact ha
  | cons y ys ih =>
    exact ih (min a y) (le_min ha (hl y (List.mem_cons_self _ _)))
      (fun x hx => hl x (List.mem_cons_of_mem _ hx))

theorem foldl_max_le (l : List Nat) (a b : Nat) (ha : a ≤ b) (hl : ∀ x ∈ l, x ≤ b) :
    l.foldl max a ≤ b := by
  induction l generalizing a with
  | nil => exact ha
  | cons y ys ih =>
    exact ih (max a y) (max_le ha (hl y (List.mem_cons_self _ _)))
      (fun x hx => hl x (List.mem_cons_of_mem _ hx))

theorem init_le_foldl_max (l : List Nat) (a : Nat) : a ≤ l.foldl max a := by
  induction l generalizing a with
  | nil => exact le_refl _
  | cons x xs ih => exact le_trans (le_max_left _ _) (ih (max a x))

theorem le_foldl_max_of_mem (l : List Nat) (a x : Nat) (hx : x ∈ l) : x ≤ l.foldl max a := by
  induction l generalizing a with
  | nil => cases hx
  | cons y ys ih =>
    rcases List.mem_cons.mp hx with h | h
    · subst h
      exact le_trans (le_max_right _ _) (init_le_foldl_max ys (max a x))
    · exact ih (max a y) h

/-- The 17 non-zero entries of the 5x5 ellipse. -/
theorem kernelPoints_ellipse :
    kernelPoints getStructuringElement_ELLIPSE_5x5 =
      [(0, 2), (1, 0), (1, 1), (1, 2), (1, 3), (1, 4), (2, 0), (2, 1), (2, 2), (2, 3), (2, 4),
        (3, 0), (3, 1), (3, 2), (3, 3), (3, 4), (4, 2)] := by
  decide

theorem kernelPoints_bound (d : Nat × Nat)
    (hd : d ∈ kernelPoints getStructuringElement_ELLIPSE_5x5) : d.1 ≤ 4 ∧ d.2 ≤ 4 := by
  rw [kernelPoints_ellipse] at hd
  revert d
  decide

/-- The centre column of the ellipse is full. -/
theorem kernelPoints_centre_column (k : Nat) (hk : k ≤ 4) :
    (k, 2) ∈ kernelPoints getStructuringElement_ELLIPSE_5x5 := by
  rw [kernelPoints_ellipse]
  have : k = 0 ∨ k = 1 ∨ k = 2 ∨ k = 3 ∨ k = 4 := by omega
  rcases this with rfl | rfl | rfl | rfl | rfl <;> decide

theorem erodePlane_eq_zero (src : Plane) (rows cols i j : Nat) (d : Nat × Nat)
    (hd : d ∈ kernelPoints getStructuringElement_ELLIPSE_5x5)
    (h0 : kernelSample 255 src rows cols i j d = 0) :
    erodePlane src rows cols i j = 0 := by
  have := foldl_min_le_of_mem
    ((kernelPoints getStructuringElement_ELLIPSE_5x5).map (kernelSample 255 src rows cols i j))
    255 0 (by rw [← h0]; exact List.mem_map_of_mem _ hd)
  unfold erodePlane
  omega

theorem erodePlane_eq_top (src : Plane) (rows cols i j : Nat)
    (h : ∀ d ∈ kernelPoints getStructuringElement_ELLIPSE_5x5,
      255 ≤ kernelSample 255 src rows cols i j d) :
    erodePlane src rows cols i j = 255 := by
  have h1 := foldl_min_le_init
    ((kernelPoints getStructuringElement_ELLIPSE_5x5).map (kernelSample 255 src rows cols i j))
    255
  have h2 := le_foldl_min
    ((kernelPoints getStructuringElement_ELLIPSE_5x5).map (kernelSample 255 src rows cols i j))
    255 255 (le_refl _) (by
      intro x hx
      obtain ⟨d, hd, rfl⟩ := List.mem_map.mp hx
      exact h d hd)
  unfold erodePlane
  omega

theorem dilatePlane_eq_zero (src : Plane) (rows cols i j : Nat)
    (h : ∀ d ∈ kernelPoints getStructuringElement_ELLIPSE_5x5,
      kernelSample 0 src rows cols i j d = 0) :
    dilatePlane src rows cols i j = 0 := by
  have := foldl_max_le
    ((kernelPoints getStructuringElement_ELLIPSE_5x5).map (kernelSample 0 src rows cols i j))
    0 0 (le_refl _) (by
      intro x hx
      obtain ⟨d, hd, rfl⟩ := List.mem_map.mp hx
      exact le_of_eq (h d hd))
  unfold dilatePlane
  omega

theorem dilatePlane_eq_top (src : Plane) (rows cols i j : Nat) (d : Nat × Nat)
    (hd : d ∈ kernelPoints getStructuringElement_ELLIPSE_5x5)
    (h255 : kernelSample 0 src rows cols i j d = 255)
    (hle : ∀ e ∈ kernelPoints getStructuringElement_ELLIPSE_5x5,
      kernelSample 0 src rows cols i j e ≤ 255) :
    dilatePlane src rows cols i j = 255 := by
  have h1 := le_foldl_max_of_mem
    ((kernelPoints getStructuringElement_ELLIPSE_5x5).map (kernelSample 0 src rows cols i j))
    0 255 (by rw [← h255]; exact List.mem_map_of_mem _ hd)
  have h2 := foldl_max_le
    ((kernelPoints getStructuringElement_ELLIPSE_5x5).map (kernelSample 0 src rows cols i j))
    0 255 (by omega) (by
      intro x hx
      obtain ⟨e, he, rfl⟩ := List.mem_map.mp hx
      exact hle e he)
  unfold dilatePlane
  omega

/-- The centre entry of the kernel reads the pixel itself. -/
theorem kernelSample_centre (border : Nat) (src : Plane) (rows cols i j : Nat)
    (hi : i < rows) (hj : j < cols) :
    kernelSample border src rows cols i j (2, 2) = src i j := by
  unfold kernelSample
  rw [if_pos ⟨by omega, by simpa using hi, by omega, by simpa using hj⟩]
  simp

/-- Opening a plane that is zero inside the image gives zero everywhere. -/
theorem dilate_erode_zero (src : Plane) (rows cols : Nat)
    (h0 : ∀ y x, y < rows → x < cols → src y x = 0) (i j : Nat) :
    dilatePlane (erodePlane src rows cols) rows cols i j = 0 := by
  apply dilatePlane_eq_zero
  intro d _
  unfold kernelSample
  split
  · rename_i hin
    apply erodePlane_eq_zero _ _ _ _ _ (2, 2) (kernelPoints_centre_column 2 (by omega))
    rw [kernelSample_centre _ _ _ _ _ _ hin.2.1 hin.2.2.2]
    exact h0 _ _ hin.2.1 hin.2.2.2
  · rfl


/-! ## Opening a horizontal stripe -/

/-- Erosion of the stripe of rows 40..60: a pixel survives when every row the
kernel reaches inside the image belongs to the stripe. -/
theorem erodePlane_stripe (src : Plane) (rows cols : Nat)
    (hsrc : ∀ y x, y < rows → x < cols → src y x = if 40 ≤ y ∧ y ≤ 60 then 255 else 0)
    (i j : Nat) (hi : i < rows) (hj : j < cols) :
    erodePlane src rows cols i j =
      if 42 ≤ i ∧ i ≤ 60 ∧ (rows ≤ i + 1 ∨ i + 1 ≤ 60) ∧ (rows ≤ i + 2 ∨ i + 2 ≤ 60) then 255
      else 0 := by
  have centre : ∀ k, k ≤ 4 → 2 ≤ i + k → i + k - 2 < rows →
      kernelSample 255 src rows cols i j (k, 2) =
        if 40 ≤ i + k - 2 ∧ i + k - 2 ≤ 60 then 255 else 0 := by
    intro k _ h1 h2
    unfold kernelSample
    rw [if_pos ⟨h1, h2, by omega, by simpa using hj⟩]
    exact hsrc _ _ h2 (by simpa using hj)
  by_cases hc : 42 ≤ i ∧ i ≤ 60 ∧ (rows ≤ i + 1 ∨ i + 1 ≤ 60) ∧ (rows ≤ i + 2 ∨ i + 2 ≤ 60)
  · rw [if_pos hc]
    apply erodePlane_eq_top
    intro d hd
    have hb := kernelPoints_bound d hd
    unfold kernelSample
    split
    · rename_i hin
      rw [hsrc _ _ hin.2.1 hin.2.2.2, if_pos (by omega)]
    · exact le_refl _
  · rw [if_neg hc]
    by_cases h1 : i < 40 ∨ 60 < i
    · apply erodePlane_eq_zero _ _ _ _ _ (2, 2) (kernelPoints_centre_column 2 (by omega))
      rw [centre 2 (by omega) (by omega) (by omega), if_neg (by omega)]
    · by_cases h2 : i < 42
      · apply erodePlane_eq_zero _ _ _ _ _ (0, 2) (kernelPoints_centre_column 0 (by omega))
        rw [centre 0 (by omega) (by omega) (by omega), if_neg (by omega)]
      · by_cases h3 : i + 1 < rows ∧ 60 < i + 1
        · apply erodePlane_eq_zero _ _ _ _ _ (3, 2) (kernelPoints_centre_column 3 (by omega))
          rw [centre 3 (by omega) (by omega) (by omega), if_neg (by omega)]
        · apply erodePlane_eq_zero _ _ _ _ _ (4, 2) (kernelPoints_centre_column 4 (by omega))
          rw [centre 4 (by omega) (by omega) (by omega), if_neg (by omega)]

/-- Opening (erosion then dilation) gives back the stripe of rows 40..60 in any
image with more than 60 rows. -/
theorem dilate_erode_stripe (src : Plane) (rows cols : Nat) (hrows : 60 < rows)
    (hsrc : ∀ y x, y < rows → x < cols → src y x = if 40 ≤ y ∧ y ≤ 60 then 255 else 0)
    (i j : Nat) (hi : i < rows) (hj : j < cols) :
    dilatePlane (erodePlane src rows cols) rows cols i j =
      if 40 ≤ i ∧ i ≤ 60 then 255 else 0 := by
  have hE := erodePlane_stripe src rows cols hsrc
  have hle : ∀ e ∈ kernelPoints getStructuringElement_ELLIPSE_5x5,
      kernelSample 0 (erodePlane src rows cols) rows cols i j e ≤ 255 := by
    intro e _
    unfold kernelSample
    split
    · rename_i hin
      rw [hE _ _ hin.2.1 hin.2.2.2]
      split <;> omega
    · omega
  have centre : ∀ k, k ≤ 4 → 2 ≤ i + k → 42 ≤ i + k - 2 → i + k - 2 ≤ 58 →
      kernelSample 0 (erodePlane src rows cols) rows cols i j (k, 2) = 255 := by
    intro k _ h1 h2 h3
    unfold kernelSample
    rw [if_pos ⟨h1, by omega, by omega, by simpa using hj⟩]
    rw [hE _ _ (by omega) (by simpa using hj), if_pos (by omega)]
  by_cases hc : 40 ≤ i ∧ i ≤ 60
  · rw [if_pos hc]
    have hk : ∃ k, k ≤ 4 ∧ 2 ≤ i + k ∧ 42 ≤ i + k - 2 ∧ i + k - 2 ≤ 58 := by
      by_cases h40 : i < 42
      · exact ⟨44 - i, by omega, by omega, by omega, by omega⟩
      · by_cases h58 : 58 < i
        · exact ⟨60 - i, by omega, by omega, by omega, by omega⟩
        · exact ⟨2, by omega, by omega, by omega, by omega⟩
    obtain ⟨k, hk4, hk1, hk2, hk3⟩ := hk
    exact dilatePlane_eq_top _ _ _ _ _ (k, 2) (kernelPoints_centre_column k hk4)
      (centre k hk4 hk1 hk2 hk3) hle
  · rw [if_neg hc]
    apply dilatePlane_eq_zero
    intro d hd
    have hb := kernelPoints_bound d hd
    unfold kernelSample
    split
    · rename_i hin
      rw [hE _ _ hin.2.1 hin.2.2.2, if_neg (by omega)]
    · rfl

/-! ## The brightness image of a frame pair -/

/-- When both frames pass the guard and the brightness image exists, the call does
not throw and ends with the envelope update on the scan of that image. -/
theorem FindTopBottomLines_of_brightness (c : State) (mat_color_ref mat_color : Mat)
    (hsv : MatHSV) (hv : validFrames mat_color_ref mat_color)
    (hb : brightnessImage mat_color_ref mat_color = some hsv) :
    (FindTopBottomLines c mat_color_ref mat_color).state = updateLines c (scan hsv) ∧
      (FindTopBottomLines c mat_color_ref mat_color).threw = false := by
  obtain ⟨h1, h2, h3, h4⟩ := hv
  unfold brightnessImage at hb
  unfold FindTopBottomLines
  rw [if_neg (by simp [h1, h2, h3, h4])]
  cases hs : subtract mat_color mat_color_ref with
  | none => rw [hs] at hb; simp at hb
  | some diff =>
    rw [hs] at hb
    simp only [Option.bind] at hb
    simp only [hb]
    exact ⟨trivial, trivial⟩

/-- The brightness image of two frames of equal size and type: the opening of the
saturated difference, reduced to its largest channel. -/
theorem brightnessImage_eq (mat_color_ref mat_color : Mat)
    (hrows : mat_color.rows = mat_color_ref.rows) (hcols : mat_color.cols = mat_color_ref.cols)
    (htype : mat_color.type = mat_color_ref.type)
    (hr : 0 < mat_color.rows) (hc : 0 < mat_color.cols) :
    ∃ diff, subtract mat_color mat_color_ref = some diff ∧
      diff.rows = mat_color.rows ∧ diff.cols = mat_color.cols ∧
      (∀ i j, diff.pixel i j =
        { val0 := saturate_cast ((mat_color.pixel i j).val0 - (mat_color_ref.pixel i j).val0)
          val1 := saturate_cast ((mat_color.pixel i j).val1 - (mat_color_ref.pixel i j).val1)
          val2 := saturate_cast ((mat_color.pixel i j).val2 - (mat_color_ref.pixel i j).val2) }) ∧
      brightnessImage mat_color_ref mat_color =
        some
          { rows := mat_color.rows
            cols := mat_color.cols
            val2 := fun i j =>
              max (max
                (dilatePlane (erodePlane (fun y x => (diff.pixel y x).val0)
                  mat_color.rows mat_color.cols) mat_color.rows mat_color.cols i j)
                (dilatePlane (erodePlane (fun y x => (diff.pixel y x).val1)
                  mat_color.rows mat_color.cols) mat_color.rows mat_color.cols i j))
                (dilatePlane (erodePlane (fun y x => (diff.pixel y x).val2)
                  mat_color.rows mat_color.cols) mat_color.rows mat_color.cols i j) } := by
  have hsub : subtract mat_color mat_color_ref = some
      { rows := mat_color.rows
        cols := mat_color.cols
        type := mat_color.type
        data := decide (0 < mat_color.rows ∧ 0 < mat_color.cols)
        pixel := fun i j =>
          { val0 := saturate_cast ((mat_color.pixel i j).val0 - (mat_color_ref.pixel i j).val0)
            val1 := saturate_cast ((mat_color.pixel i j).val1 - (mat_color_ref.pixel i j).val1)
            val2 := saturate_cast
              ((mat_color.pixel i j).val2 - (mat_color_ref.pixel i j).val2) } } := by
    unfold subtract
    rw [if_pos ⟨hrows, hcols, htype⟩]
  refine ⟨_, hsub, rfl, rfl, fun _ _ => rfl, ?_⟩
  unfold brightnessImage
  rw [hsub]
  simp only [Option.bind, cvtColor_BGR2HSV, Mat.empty, erode, dilate]
  have hr0 : mat_color.rows ≠ 0 := by omega
  have hc0 : mat_color.cols ≠ 0 := by omega
  simp [hr, hc, hr0, hc0]


/-! ## The band detector: theorems -/

theorem saturate_cast_sub_self (a : Nat) : saturate_cast ((a : Int) - (a : Int)) = 0 := by
  simp [saturate_cast]

/-- A frame compared with itself: when it has pixels, the call ends with the
envelope update on the untouched scan state `max_i = 0, min_i = rows`; when it has
none, the colour conversion throws and the state is as before. -/
theorem FindTopBottomLines_same_frame (c : State) (m : Mat)
    (hd : m.data = true) (ht : m.type = CV_8UC3) :
    (FindTopBottomLines c m m).state =
      if 0 < m.rows ∧ 0 < m.cols then
        updateLines c { max_i := 0, min_i := m.rows, first := true }
      else c := by
  by_cases hne : 0 < m.rows ∧ 0 < m.cols
  · rw [if_pos hne]
    obtain ⟨diff, _, _, _, hpix, hb⟩ := brightnessImage_eq m m rfl rfl rfl hne.1 hne.2
    rw [(FindTopBottomLines_of_brightness c m m _ ⟨hd, ht, hd, ht⟩ hb).1]
    congr 1
    apply scan_of_dark
    intro i j _ _
    have hz : ∀ (ch : Vec3b → Nat), (∀ y x, ch (diff.pixel y x) = 0) →
        dilatePlane (erodePlane (fun y x => ch (diff.pixel y x)) m.rows m.cols)
          m.rows m.cols i j = 0 :=
      fun ch h => dilate_erode_zero _ _ _ (fun y x _ _ => h y x) i j
    have h0 := hz Vec3b.val0 (fun y x => by rw [hpix]; exact saturate_cast_sub_self _)
    have h1 := hz Vec3b.val1 (fun y x => by rw [hpix]; exact saturate_cast_sub_self _)
    have h2 := hz Vec3b.val2 (fun y x => by rw [hpix]; exact saturate_cast_sub_self _)
    simp only [h0, h1, h2]
    decide
  · rw [if_neg hne]
    have hempty : m.rows = 0 ∨ m.cols = 0 := by omega
    unfold FindTopBottomLines
    rw [if_neg (by simp [hd, ht])]
    have hsub : ∃ diff, subtract m m = some diff ∧ diff.rows = m.rows ∧ diff.cols = m.cols := by
      unfold subtract
      rw [if_pos ⟨rfl, rfl, rfl⟩]
      exact ⟨_, rfl, rfl, rfl⟩
    obtain ⟨diff, hs, hr, hc⟩ := hsub
    rw [hs]
    have hcv : cvtColor_BGR2HSV (dilate (erode diff)) = none := by
      unfold cvtColor_BGR2HSV
      rw [if_pos]
      rcases hempty with h | h
      · simp [Mat.empty, dilate, erode, hr, h]
      · simp [Mat.empty, dilate, erode, hc, h]
    simp only [hcv]

/-- C5 (counterexample): with prior envelope `(480, 0)` and a valid 100x100 frame
used as both reference and live frame, the call lowers `TopLine` to 100. -/
theorem FindTopBottomLines_same_frame_changes_top :
    (initState 480 1).TopLine = 480 ∧
      (FindTopBottomLines (initState 480 1) (blackFrame 100 100)
        (blackFrame 100 100)).state.TopLine = 100 := by
  refine ⟨rfl, ?_⟩
  rw [FindTopBottomLines_same_frame _ _ rfl rfl, if_pos (by decide), updateLines_TopLine]
  decide

/-- C5 (amended): for every valid 3-channel frame and every prior envelope with
`TopLine <= rows` and `BottomLine >= 0`, calling `FindTopBottomLines` with the live
frame identical to the reference frame leaves the state, and so both `TopLine`
and `BottomLine`, equal to their prior values. -/
theorem FindTopBottomLines_same_frame_unchanged (c : State) (m : Mat)
    (hd : m.data = true) (ht : m.type = CV_8UC3)
    (htop : c.TopLine ≤ (m.rows : Int)) (hbot : 0 ≤ c.BottomLine) :
    (FindTopBottomLines c m m).state = c ∧
      (FindTopBottomLines c m m).state.TopLine = c.TopLine ∧
      (FindTopBottomLines c m m).state.BottomLine = c.BottomLine := by
  have key : (FindTopBottomLines c m m).state = c := by
    rw [FindTopBottomLines_same_frame c m hd ht]
    split
    · exact updateLines_eq_self c _ (by simpa using hbot) htop
    · rfl
  exact ⟨key, by rw [key], by rw [key]⟩

/-- C5 (witness): the envelope `(100, 0)` and a valid 100x100 frame. -/
theorem FindTopBottomLines_same_frame_unchanged_witness :
    ((blackFrame 100 100).data = true ∧ (blackFrame 100 100).type = CV_8UC3 ∧
        (initState 100 1).TopLine ≤ ((blackFrame 100 100).rows : Int) ∧
        0 ≤ (initState 100 1).BottomLine) ∧
      ((FindTopBottomLines (initState 100 1) (blackFrame 100 100) (blackFrame 100 100)).state
          = initState 100 1 ∧
        (FindTopBottomLines (initState 100 1) (blackFrame 100 100)
            (blackFrame 100 100)).state.TopLine = (initState 100 1).TopLine ∧
        (FindTopBottomLines (initState 100 1) (blackFrame 100 100)
            (blackFrame 100 100)).state.BottomLine = (initState 100 1).BottomLine) :=
  ⟨⟨rfl, rfl, by decide, by decide⟩,
    FindTopBottomLines_same_frame_unchanged (initState 100 1) (blackFrame 100 100) rfl rfl
      (by decide) (by decide)⟩

theorem saturate_cast_white : saturate_cast ((255 : Nat) - (0 : Nat)) = 255 := by decide

theorem saturate_cast_black : saturate_cast ((0 : Nat) - (0 : Nat)) = 0 := by decide

/-- The brightness image of a black reference and a stripe live frame is the
stripe itself: 255 on rows 40..60 and 0 elsewhere, at every pixel of the image. -/
theorem brightnessImage_stripe (mat_color_ref mat_color : Mat) (rows cols : Nat)
    (hrows : 60 < rows) (hcols : 1 ≤ cols)
    (href : mat_color_ref.type = CV_8UC3 ∧ mat_color_ref.rows = rows ∧ mat_color_ref.cols = cols)
    (hlive : mat_color.type = CV_8UC3 ∧ mat_color.rows = rows ∧ mat_color.cols = cols)
    (hblack : ∀ i j, i < rows → j < cols →
      mat_color_ref.pixel i j = { val0 := 0, val1 := 0, val2 := 0 })
    (hstripe : ∀ i j, i < rows → j < cols →
      mat_color.pixel i j =
        if 40 ≤ i ∧ i ≤ 60 then { val0 := 255, val1 := 255, val2 := 255 }
        else { val0 := 0, val1 := 0, val2 := 0 }) :
    ∃ hsv, brightnessImage mat_color_ref mat_color = some hsv ∧
      hsv.rows = rows ∧ hsv.cols = cols ∧
      ∀ i j, i < rows → j < cols → hsv.val2 i j = if 40 ≤ i ∧ i ≤ 60 then 255 else 0 := by
  obtain ⟨hrt, hrr, hrc⟩ := href
  obtain ⟨hlt, hlr, hlc⟩ := hlive
  obtain ⟨diff, _, _, _, hpix, hb⟩ := brightnessImage_eq mat_color_ref mat_color
    (by rw [hlr, hrr]) (by rw [hlc, hrc]) (by rw [hlt, hrt]) (by omega) (by omega)
  refine ⟨_, hb, hlr, hlc, ?_⟩
  intro i j hi hj
  have hplane : ∀ (ch : Vec3b → Nat),
      (∀ y x, y < rows → x < cols → ch (diff.pixel y x) = if 40 ≤ y ∧ y ≤ 60 then 255 else 0) →
      dilatePlane (erodePlane (fun y x => ch (diff.pixel y x)) mat_color.rows mat_color.cols)
        mat_color.rows mat_color.cols i j = if 40 ≤ i ∧ i ≤ 60 then 255 else 0 := by
    intro ch h
    rw [hlr, hlc]
    exact dilate_erode_stripe _ rows cols hrows h i j hi hj
  have hdiff : ∀ y x, y < rows → x < cols →
      diff.pixel y x =
        if 40 ≤ y ∧ y ≤ 60 then { val0 := 255, val1 := 255, val2 := 255 }
        else { val0 := 0, val1 := 0, val2 := 0 } := by
    intro y x hy hx
    rw [hpix, hblack y x hy hx, hstripe y x hy hx]
    split
    · simp only [saturate_cast_white]
    · simp only [saturate_cast_black]
  have h0 := hplane Vec3b.val0 (fun y x hy hx => by rw [hdiff y x hy hx]; split <;> rfl)
  have h1 := hplane Vec3b.val1 (fun y x hy hx => by rw [hdiff y x hy hx]; split <;> rfl)
  have h2 := hplane Vec3b.val2 (fun y x hy hx => by rw [hdiff y x hy hx]; split <;> rfl)
  simp only [h0, h1, h2, max_self]

/-- C4: for every frame size with more than 60 rows and at least one column, an
all-black reference frame and a live frame white on rows 40..60 and black
elsewhere, the scan of `FindTopBottomLines` (after saturating subtraction, opening
with the 5x5 ellipse and taking the largest channel) observes top row 40 and
bottom row 60, and from the envelope `(rows, 0)` the call ends, without throwing,
with the envelope `(40, 60)`. -/
theorem FindTopBottomLines_stripe (c : State) (mat_color_ref mat_color : Mat) (rows cols : Nat)
    (hrows : 60 < rows) (hcols : 1 ≤ cols)
    (href : mat_color_ref.data = true ∧ mat_color_ref.type = CV_8UC3 ∧
      mat_color_ref.rows = rows ∧ mat_color_ref.cols = cols)
    (hlive : mat_color.data = true ∧ mat_color.type = CV_8UC3 ∧
      mat_color.rows = rows ∧ mat_color.cols = cols)
    (hblack : ∀ i j, i < rows → j < cols →
      mat_color_ref.pixel i j = { val0 := 0, val1 := 0, val2 := 0 })
    (hstripe : ∀ i j, i < rows → j < cols →
      mat_color.pixel i j =
        if 40 ≤ i ∧ i ≤ 60 then { val0 := 255, val1 := 255, val2 := 255 }
        else { val0 := 0, val1 := 0, val2 := 0 })
    (htop : c.TopLine = (rows : Int)) (hbot : c.BottomLine = 0) :
    (∃ hsv, brightnessImage mat_color_ref mat_color = some hsv ∧
        (scan hsv).min_i = 40 ∧ (scan hsv).max_i = 60) ∧
      (FindTopBottomLines c mat_color_ref mat_color).threw = false ∧
      (FindTopBottomLines c mat_color_ref mat_color).state.TopLine = 40 ∧
      (FindTopBottomLines c mat_color_ref mat_color).state.BottomLine = 60 := by
  obtain ⟨hsv, hb, hr, hc, hval⟩ := brightnessImage_stripe mat_color_ref mat_color rows cols
    hrows hcols href.2 hlive.2 hblack hstripe
  have hlit : ∀ i, litRow hsv i ↔ 40 ≤ i ∧ i ≤ 60 := by
    intro i
    constructor
    · rintro ⟨hi, j, hj, hv⟩
      rw [hr] at hi
      rw [hc] at hj
      rw [hval i j hi hj] at hv
      by_contra hcon
      rw [if_neg hcon] at hv
      omega
    · intro hi
      refine ⟨by omega, 0, by omega, ?_⟩
      rw [hval i 0 (by omega) (by omega), if_pos hi]
      decide
  obtain ⟨⟨hminlit, hleast⟩, ⟨hmaxlit, hgreatest⟩⟩ := scan_of_lit hsv ⟨40, (hlit 40).2 (by omega)⟩
  have hmin : (scan hsv).min_i = 40 := by
    have h1 := (hlit _).1 hminlit
    have h2 := hleast 40 ((hlit 40).2 (by omega))
    omega
  have hmax : (scan hsv).max_i = 60 := by
    have h1 := (hlit _).1 hmaxlit
    have h2 := hgreatest 60 ((hlit 60).2 (by omega))
    omega
  have hcall := FindTopBottomLines_of_brightness c mat_color_ref mat_color hsv
    ⟨href.1, href.2.1, hlive.1, hlive.2.1⟩ hb
  refine ⟨⟨hsv, hb, hmin, hmax⟩, hcall.2, ?_, ?_⟩
  · rw [hcall.1, updateLines_TopLine, hmin, htop]
    have : ((40 : Nat) : Int) ≤ (rows : Int) := by exact_mod_cast (by omega : 40 ≤ rows)
    rw [min_eq_right this]
    rfl
  · rw [hcall.1, updateLines_BottomLine, hmax, hbot]
    decide

/-- C4 (witness): 61 rows and one column, so that the stripe touches the last row. -/
theorem FindTopBottomLines_stripe_witness :
    (60 < 61 ∧ 1 ≤ 1 ∧ (initState 61 1).TopLine = ((61 : Nat) : Int) ∧
        (initState 61 1).BottomLine = 0) ∧
      ((∃ hsv, brightnessImage (blackFrame 61 1) (stripeFrame 61 1) = some hsv ∧
          (scan hsv).min_i = 40 ∧ (scan hsv).max_i = 60) ∧
        (FindTopBottomLines (initState 61 1) (blackFrame 61 1) (stripeFrame 61 1)).threw = false ∧
        (FindTopBottomLines (initState 61 1) (blackFrame 61 1) (stripeFrame 61 1)).state.TopLine
          = 40 ∧
        (FindTopBottomLines (initState 61 1) (blackFrame 61 1)
          (stripeFrame 61 1)).state.BottomLine = 60) :=
  ⟨⟨by decide, by decide, rfl, rfl⟩,
    FindTopBottomLines_stripe (initState 61 1) (blackFrame 61 1) (stripeFrame 61 1) 61 1
      (by decide) (by decide) ⟨rfl, rfl, rfl, rfl⟩ ⟨rfl, rfl, rfl, rfl⟩
      (fun _ _ _ _ => rfl) (fun _ _ _ _ => rfl) rfl rfl⟩

/-- The brightness image of the black 61x1 reference and the 61x1 stripe frame is
`stripeHSV`: 61 rows, one column, 255 on rows 40..60 and 0 elsewhere. -/
theorem brightnessImage_black_stripe :
    brightnessImage (blackFrame 61 1) (stripeFrame 61 1) = some stripeHSV ∧
      stripeHSV.rows = 61 ∧ stripeHSV.cols = 1 ∧
      ∀ i j, i < 61 → j < 1 → stripeHSV.val2 i j = if 40 ≤ i ∧ i ≤ 60 then 255 else 0 := by
  obtain ⟨hsv, hb, hr, hc, hval⟩ := brightnessImage_stripe (blackFrame 61 1) (stripeFrame 61 1)
    61 1 (by decide) (by decide) ⟨rfl, rfl, rfl⟩ ⟨rfl, rfl, rfl⟩
    (fun _ _ _ _ => rfl) (fun _ _ _ _ => rfl)
  have heq : stripeHSV = hsv := by
    unfold stripeHSV
    rw [hb]
    rfl
  rw [heq]
  exact ⟨hb, hr, hc, hval⟩

/-- C9: for every brightness image with at least one pixel brighter than 90, the
scan ends with `min_i` the smallest and `max_i` the largest index of a row holding
such a pixel; the two updates that end the call then leave, from any prior state,
`BottomLine = max(old BottomLine, max_i)` and `TopLine = min(old TopLine, min_i)`;
and every call of `FindTopBottomLines` whose frames produce that brightness image
ends in exactly that updated state. -/
theorem FindTopBottomLines_scan_extremes (hsv : MatHSV)
    (hlit : ∃ i j, i < hsv.rows ∧ j < hsv.cols ∧ 90 < hsv.val2 i j) :
    (litRow hsv (scan hsv).min_i ∧ ∀ i, litRow hsv i → (scan hsv).min_i ≤ i) ∧
      (litRow hsv (scan hsv).max_i ∧ ∀ i, litRow hsv i → i ≤ (scan hsv).max_i) ∧
      (∀ c : State,
        (updateLines c (scan hsv)).BottomLine = max c.BottomLine ((scan hsv).max_i : Int) ∧
          (updateLines c (scan hsv)).TopLine = min c.TopLine ((scan hsv).min_i : Int)) ∧
      ∀ (c : State) (mat_color_ref mat_color : Mat), validFrames mat_color_ref mat_color →
        brightnessImage mat_color_ref mat_color = some hsv →
        (FindTopBottomLines c mat_color_ref mat_color).state = updateLines c (scan hsv) ∧
          (FindTopBottomLines c mat_color_ref mat_color).threw = false := by
  obtain ⟨i, j, hi, hj, hv⟩ := hlit
  have h := scan_of_lit hsv ⟨i, hi, j, hj, hv⟩
  refine ⟨h.1, h.2, ?_, ?_⟩
  · intro c
    exact ⟨updateLines_BottomLine c (scan hsv), updateLines_TopLine c (scan hsv)⟩
  · intro c mat_color_ref mat_color hvalid hb
    exact FindTopBottomLines_of_brightness c mat_color_ref mat_color hsv hvalid hb

/-- C9 (witness): the brightness image of the black 61x1 reference and the 61x1
stripe frame, which is lit at pixel `(40, 0)` and is the image an actual call scans. -/
theorem FindTopBottomLines_scan_extremes_witness :
    (∃ i j, i < stripeHSV.rows ∧ j < stripeHSV.cols ∧ 90 < stripeHSV.val2 i j) ∧
      (validFrames (blackFrame 61 1) (stripeFrame 61 1) ∧
        brightnessImage (blackFrame 61 1) (stripeFrame 61 1) = some stripeHSV) ∧
      ((litRow stripeHSV (scan stripeHSV).min_i ∧
          ∀ i, litRow stripeHSV i → (scan stripeHSV).min_i ≤ i) ∧
        (litRow stripeHSV (scan stripeHSV).max_i ∧
          ∀ i, litRow stripeHSV i → i ≤ (scan stripeHSV).max_i) ∧
        (∀ c : State,
          (updateLines c (scan stripeHSV)).BottomLine
              = max c.BottomLine ((scan stripeHSV).max_i : Int) ∧
            (updateLines c (scan stripeHSV)).TopLine
              = min c.TopLine ((scan stripeHSV).min_i : Int)) ∧
        ∀ (c : State) (mat_color_ref mat_color : Mat), validFrames mat_color_ref mat_color →
          brightnessImage mat_color_ref mat_color = some stripeHSV →
          (FindTopBottomLines c mat_color_ref mat_color).state
              = updateLines c (scan stripeHSV) ∧
            (FindTopBottomLines c mat_color_ref mat_color).threw = false) :=
  ⟨⟨40, 0, by rw [brightnessImage_black_stripe.2.1]; decide,
      by rw [brightnessImage_black_stripe.2.2.1]; decide,
      by rw [brightnessImage_black_stripe.2.2.2 40 0 (by decide) (by decide)]; decide⟩,
    ⟨⟨rfl, rfl, rfl, rfl⟩, brightnessImage_black_stripe.1⟩,
    FindTopBottomLines_scan_extremes stripeHSV
      ⟨40, 0, by rw [brightnessImage_black_stripe.2.1]; decide,
        by rw [brightnessImage_black_stripe.2.2.1]; decide,
        by rw [brightnessImage_black_stripe.2.2.2 40 0 (by decide) (by decide)]; decide⟩⟩

end CameraInput
